import Mathlib

/-!
# Verification of the `orders-create` edge function

Shallow embedding of the order-creation backend
(`supabase/functions/orders-create/index.ts`, exporting `handleOrdersCreate`,
together with the SQL schema and RLS policies in `supabase/migrations/`).

Conventions of the embedding:

* JavaScript numbers that the code only ever uses as integers (cent amounts,
  quantities, inventory counters) are modelled as `Int`; the validator rejects
  non-integral numbers, which we model with an explicit `nonInt` marker.
* The database is modelled as in-memory lists of rows.  The inventory table is
  an association list from `variant_id` to its `(on_hand, reserved)` counters;
  a Supabase `update().eq(...)` statement updates every row matching its
  filters, which the embedding mirrors.
* Fallible steps return `Except`/explicit result types; the single external
  failure the claims need (the `inventory_movements` insert) is an oracle
  stored in the world state.
* JavaScript string normalization (`trim`, `toUpperCase`, `toLowerCase`) is
  modelled character-listwise over the ASCII subset the backend uses.
-/

/-- Inventory counters of one `inventory` row (`on_hand`, `reserved`);
the `variant_id` key is the first component of the association-list entry. -/
structure InventoryCounts where
  on_hand : Int
  reserved : Int
deriving DecidableEq, Repr

/-- `StockQuantity` from the source: a requested quantity for one variant. -/
structure StockQuantity where
  variant_id : String
  quantity : Int
deriving DecidableEq, Repr

/-- `InventoryMode` from the source: `"reserve" | "purchase" | "none"`. -/
inductive InventoryMode
  | reserve
  | purchase
  | none
deriving DecidableEq, Repr

/-- The `inventory` table: association list keyed by `variant_id`. -/
abbrev InvDB := List (String × InventoryCounts)

/-- JavaScript `Map` built from an entry list: later entries win, so lookup
returns the last matching entry. -/
def lastLookup (l : List (String × InventoryCounts)) (k : String) : Option InventoryCounts :=
  List.lookup k l.reverse

/-- The batch read
`admin.from("inventory").select("variant_id, on_hand, reserved").in("variant_id", ids)`:
all rows whose key is among `ids`. -/
def readInventoryRows (db : InvDB) (ids : List String) : InvDB :=
  db.filter (fun r => ids.contains r.1)

/-- The conditional write
`update({on_hand, reserved}).eq("variant_id", v).eq("on_hand", expected.on_hand).eq("reserved", expected.reserved)`:
updates every row matching all three filters and reports how many matched
(`maybeSingle` then inspects that count). -/
def casUpdateAll (db : InvDB) (v : String) (expected target : InventoryCounts) :
    InvDB × Nat :=
  match db with
  | [] => ([], 0)
  | (k, val) :: rest =>
    let r := casUpdateAll rest v expected target
    if k = v ∧ val = expected then ((k, target) :: r.1, r.2 + 1)
    else ((k, val) :: r.1, r.2)

/-- The unconditional write `update({...}).eq("variant_id", v)` used by
rollback: updates every row with the given key. -/
def updateAll (db : InvDB) (v : String) (target : InventoryCounts) : InvDB :=
  db.map (fun r => if r.1 = v then (r.1, target) else r)

/-- The target counters computed in `applyInventoryMutation`:
`nextOnHand = mode === "purchase" ? on_hand - q : on_hand`,
`nextReserved = mode === "reserve" ? reserved + q : reserved`. -/
def nextVal (mode : InventoryMode) (q : Int) (cur : InventoryCounts) : InventoryCounts :=
  { on_hand := if mode = .purchase then cur.on_hand - q else cur.on_hand
    reserved := if mode = .reserve then cur.reserved + q else cur.reserved }

/-- The counters written by `rollbackInventoryMutation`:
`purchase` adds the quantity back to `on_hand`; `reserve` subtracts it from
`reserved`, floored at zero. -/
def rollbackVal (mode : InventoryMode) (q : Int) (cur : InventoryCounts) : InventoryCounts :=
  { on_hand := if mode = .purchase then cur.on_hand + q else cur.on_hand
    reserved := if mode = .reserve then max 0 (cur.reserved - q) else cur.reserved }

/-- The distinct failure messages `applyInventoryMutation` can throw. -/
inductive InvErr
  | missingRows
  | missingVariant (v : String)
  | insufficient (v : String)
  | updateFailed (v : String)
  | conflict (v : String)
deriving DecidableEq, Repr

/-- The `detail` strings carried by an `InventoryMutationError`. -/
def invErrMessage : InvErr → String
  | .missingRows => "Inventory row missing for one or more variants"
  | .missingVariant v => "Inventory row missing for variant " ++ v
  | .insufficient v => "Insufficient stock for variant " ++ v
  | .updateFailed v => "Inventory update failed for " ++ v
  | .conflict v => "Inventory changed concurrently for " ++ v ++ "; retry request"

/-- Result of `applyInventoryMutation`: success with the written inventory, or
an `InventoryMutationError` carrying the message, the `appliedQuantities`
written before the failure, and the inventory state at the failure point. -/
inductive ApplyResult
  | ok (db : InvDB)
  | fail (e : InvErr) (applied : List StockQuantity) (db : InvDB)
deriving DecidableEq, Repr

/-- The per-variant loop of `applyInventoryMutation`: look the variant up in
the snapshot map, check `available = on_hand - reserved` against the request,
then compare-and-swap the row; on success push onto `appliedQuantities`.
A zero-row CAS means the row changed concurrently; more than one row makes
`maybeSingle` throw an update error (the rows are still written). -/
def applyLoop (snap : InvDB) (mode : InventoryMode) (db : InvDB)
    (applied : List StockQuantity) : List StockQuantity → ApplyResult
  | [] => .ok db
  | q :: rest =>
    match lastLookup snap q.variant_id with
    | Option.none => .fail (.missingVariant q.variant_id) applied db
    | Option.some cur =>
      if cur.on_hand - cur.reserved < q.quantity then
        .fail (.insufficient q.variant_id) applied db
      else
        let r := casUpdateAll db q.variant_id cur (nextVal mode q.quantity cur)
        if r.2 = 1 then applyLoop snap mode r.1 (applied ++ [q]) rest
        else if r.2 = 0 then .fail (.conflict q.variant_id) applied db
        else .fail (.updateFailed q.variant_id) applied r.1

/-- `applyInventoryMutation` from the source: early return in `none` mode or
on an empty batch; one snapshot read of every requested row (failing if any is
missing), then the CAS loop in the order supplied. -/
def applyInventoryMutation (db : InvDB) (quantities : List StockQuantity)
    (mode : InventoryMode) : ApplyResult :=
  if mode = .none ∨ quantities = [] then .ok db
  else
    let variantIds := quantities.map (·.variant_id)
    let rows := readInventoryRows db variantIds
    if rows.length ≠ variantIds.length then .fail .missingRows [] db
    else applyLoop rows mode db [] quantities

/-- One iteration of the rollback loop: skip a variant whose row is missing
from the rollback snapshot, otherwise unconditionally write the reversed
counters. -/
def rollbackStep (snap : InvDB) (mode : InventoryMode) (cur : InvDB)
    (q : StockQuantity) : InvDB :=
  match lastLookup snap q.variant_id with
  | Option.none => cur
  | Option.some c => updateAll cur q.variant_id (rollbackVal mode q.quantity c)

/-- `rollbackInventoryMutation` from the source: re-read the current counters
of every listed variant in one snapshot, then unconditionally write the
reversed counters per variant (missing rows are skipped). -/
def rollbackInventoryMutation (db : InvDB) (quantities : List StockQuantity)
    (mode : InventoryMode) : InvDB :=
  if mode = .none ∨ quantities = [] then db
  else
    let variantIds := quantities.map (·.variant_id)
    let snap := readInventoryRows db variantIds
    quantities.foldl (rollbackStep snap mode) db

/-- `inventoryModeForStatus` from the source. -/
def inventoryModeForStatus (status : String) : InventoryMode :=
  if status = "pending" ∨ status = "placed" then .reserve
  else if status = "paid" ∨ status = "shipped" ∨ status = "delivered" then .purchase
  else .none

/-- `movementReasonForMode` from the source. -/
def movementReasonForMode (mode : InventoryMode) : Option String :=
  match mode with
  | .reserve => Option.some "reserve"
  | .purchase => Option.some "purchase"
  | .none => Option.none

example :
    applyInventoryMutation [("v1", ⟨10, 1⟩)] [⟨"v1", 2⟩] .reserve =
      .ok [("v1", ⟨10, 3⟩)] := by decide

example :
    applyInventoryMutation [("v1", ⟨2, 1⟩)] [⟨"v1", 2⟩] .reserve =
      .fail (.insufficient "v1") [] [("v1", ⟨2, 1⟩)] := by decide

example :
    applyInventoryMutation [("v1", ⟨5, 0⟩), ("v2", ⟨1, 0⟩)]
      [⟨"v1", 2⟩, ⟨"v2", 3⟩] .purchase =
      .fail (.insufficient "v2") [⟨"v1", 2⟩] [("v1", ⟨3, 0⟩), ("v2", ⟨1, 0⟩)] := by decide

example :
    rollbackInventoryMutation [("v1", ⟨3, 0⟩), ("v2", ⟨1, 0⟩)] [⟨"v1", 2⟩] .purchase =
      [("v1", ⟨5, 0⟩), ("v2", ⟨1, 0⟩)] := by decide

/-! ## JSON values and the payload normalizer (`normalizeCreateOrderPayload`) -/

/-- A JavaScript number as the validator distinguishes them:
an integral value or a non-integral one (`Number.isInteger` fails). -/
inductive JNum
  | int (i : Int)
  | nonInt
deriving DecidableEq, Repr

/-- A parsed JSON value (`unknown` on the TypeScript side). -/
inductive JVal
  | jnull
  | jbool (b : Bool)
  | jnum (n : JNum)
  | jstr (s : String)
  | jarr (elems : List JVal)
  | jobj (fields : List (String × JVal))

/-- `isRecord` from the source: `typeof value === "object" && value !== null`.
Arrays are objects in JavaScript, so they pass. -/
def isRecordLike : JVal → Bool
  | .jobj _ => true
  | .jarr _ => true
  | _ => false

/-- Property access `value.key` on a parsed JSON value: `JSON.parse` keeps the
last of duplicate keys, and any named property of an array is `undefined`
(modelled as `Option.none`). -/
def recordGet (v : JVal) (k : String) : Option JVal :=
  match v with
  | .jobj fields => List.lookup k fields.reverse
  | _ => Option.none

/-- JavaScript `String.prototype.trim` over the character list (ASCII
whitespace model). -/
def jsTrim (s : String) : String :=
  String.mk (((s.data.dropWhile Char.isWhitespace).reverse.dropWhile Char.isWhitespace).reverse)

/-- JavaScript `String.prototype.toUpperCase` (ASCII model). -/
def jsToUpper (s : String) : String :=
  String.mk (s.data.map Char.toUpper)

/-- JavaScript `String.prototype.toLowerCase` (ASCII model). -/
def jsToLower (s : String) : String :=
  String.mk (s.data.map Char.toLower)

/-- `parseRequiredString` from the source: the value must be a string whose
trimmed form is non-empty; the trimmed form is returned. -/
def parseRequiredString (v : Option JVal) (errorMessage : String) : Except String String :=
  match v with
  | Option.some (.jstr s) =>
    if jsTrim s = "" then .error errorMessage else .ok (jsTrim s)
  | _ => .error errorMessage

/-- `parseNonNegativeInteger` from the source: `undefined`/`null` default to
0; otherwise the value must be a non-negative integral number. -/
def parseNonNegativeInteger (v : Option JVal) (fieldName : String) : Except String Int :=
  match v with
  | Option.none => .ok 0
  | Option.some .jnull => .ok 0
  | Option.some (.jnum (.int i)) =>
    if i < 0 then .error (fieldName ++ " must be a non-negative integer") else .ok i
  | Option.some _ => .error (fieldName ++ " must be a non-negative integer")

/-- `normalizeCurrency` from the source: `undefined`/`null` default to
`"EUR"`; otherwise trim and uppercase, rejecting an empty result. -/
def normalizeCurrency (v : Option JVal) : Except String String :=
  match v with
  | Option.none => .ok "EUR"
  | Option.some .jnull => .ok "EUR"
  | Option.some (.jstr s) =>
    if jsToUpper (jsTrim s) = "" then .error "currency must be a non-empty string"
    else .ok (jsToUpper (jsTrim s))
  | Option.some _ => .error "currency must be a non-empty string"

/-- The fixed order-status list from the source. -/
def ORDER_STATUSES : List String :=
  ["pending", "placed", "paid", "shipped", "delivered", "cancelled", "refunded"]

/-- The message of the status validation error. -/
def statusErrMsg : String :=
  "status must be one of: pending, placed, paid, shipped, delivered, cancelled, refunded"

/-- `normalizeStatus` from the source: `undefined`/`null` default to
`"placed"`; otherwise trim, lowercase and check membership in the status set. -/
def normalizeStatus (v : Option JVal) : Except String String :=
  match v with
  | Option.none => .ok "placed"
  | Option.some .jnull => .ok "placed"
  | Option.some (.jstr s) =>
    if ORDER_STATUSES.contains (jsToLower (jsTrim s)) then .ok (jsToLower (jsTrim s))
    else .error statusErrMsg
  | Option.some _ => .error statusErrMsg

/-- The quantity check of `normalizeItems`:
`typeof quantity !== "number" || !Number.isInteger(quantity) || quantity <= 0`
rejects the item. -/
def parseQuantity (v : Option JVal) : Except String Int :=
  match v with
  | Option.some (.jnum (.int q)) =>
    if q ≤ 0 then .error "Each item.quantity must be a positive integer"
    else .ok q
  | _ => .error "Each item.quantity must be a positive integer"

/-- The item loop of `normalizeItems`: each raw item must be an object whose
`variant_id` parses as a required string not seen before and whose `quantity`
is a positive integral number. -/
def normalizeItemsLoop (seen : List String) (acc : List StockQuantity) :
    List JVal → Except String (List StockQuantity)
  | [] => .ok acc
  | rawItem :: rest =>
    if isRecordLike rawItem then
      match parseRequiredString (recordGet rawItem "variant_id") "Each item must have variant_id" with
      | .error m => .error m
      | .ok variantId =>
        if seen.contains variantId then
          .error "items must not contain duplicate variant_id values"
        else
          match parseQuantity (recordGet rawItem "quantity") with
          | .error m => .error m
          | .ok q =>
            normalizeItemsLoop (seen ++ [variantId]) (acc ++ [⟨variantId, q⟩]) rest
    else .error "Each item must have variant_id"

/-- `normalizeItems` from the source: a non-empty array of valid items. -/
def normalizeItems (v : Option JVal) : Except String (List StockQuantity) :=
  match v with
  | Option.some (.jarr elems) =>
    if elems.length < 1 then .error "items must be a non-empty array"
    else normalizeItemsLoop [] [] elems
  | _ => .error "items must be a non-empty array"

/-- `NormalizedCreateOrderPayload` from the source. -/
structure NormalizedCreateOrderPayload where
  shippingAddressId : String
  billingAddressId : String
  currency : String
  shippingCents : Int
  taxCents : Int
  discountCents : Int
  status : String
  items : List StockQuantity
deriving DecidableEq, Repr

/-- The billing-address rule: `payload.billing_address_id == null` (loose
equality, so both `undefined` and `null`) defaults to the shipping id,
otherwise the field must be a non-empty string. -/
def parseBilling (payload : JVal) (ship : String) : Except String String :=
  match recordGet payload "billing_address_id" with
  | Option.none => Except.ok ship
  | Option.some .jnull => Except.ok ship
  | Option.some v =>
    parseRequiredString (Option.some v)
      "billing_address_id must be a non-empty string when provided"

/-- `normalizeCreateOrderPayload` from the source; field checks run in the
source's evaluation order (shipping address, billing address, then the
returned object literal's fields: currency, shipping, tax, discount, status,
items), so the first violation's message is reported. -/
def normalizeCreateOrderPayload (payload : JVal) :
    Except String NormalizedCreateOrderPayload :=
  if isRecordLike payload then
    match parseRequiredString (recordGet payload "shipping_address_id") "shipping_address_id is required" with
    | .error m => .error m
    | .ok ship =>
      match parseBilling payload ship with
      | .error m => .error m
      | .ok bill =>
        match normalizeCurrency (recordGet payload "currency") with
        | .error m => .error m
        | .ok currency =>
          match parseNonNegativeInteger (recordGet payload "shipping_cents") "shipping_cents" with
          | .error m => .error m
          | .ok shippingCents =>
            match parseNonNegativeInteger (recordGet payload "tax_cents") "tax_cents" with
            | .error m => .error m
            | .ok taxCents =>
              match parseNonNegativeInteger (recordGet payload "discount_cents") "discount_cents" with
              | .error m => .error m
              | .ok discountCents =>
                match normalizeStatus (recordGet payload "status") with
                | .error m => .error m
                | .ok status =>
                  match normalizeItems (recordGet payload "items") with
                  | .error m => .error m
                  | .ok items =>
                    .ok { shippingAddressId := ship, billingAddressId := bill,
                          currency := currency, shippingCents := shippingCents,
                          taxCents := taxCents, discountCents := discountCents,
                          status := status, items := items }
  else .error "JSON body must be an object"

example :
    normalizeCreateOrderPayload
      (.jobj [("shipping_address_id", .jstr " a1 "),
              ("items", .jarr [.jobj [("variant_id", .jstr "v1"), ("quantity", .jnum (.int 2))]])]) =
      .ok { shippingAddressId := "a1", billingAddressId := "a1", currency := "EUR",
            shippingCents := 0, taxCents := 0, discountCents := 0, status := "placed",
            items := [⟨"v1", 2⟩] } := by rfl

example :
    normalizeCreateOrderPayload
      (.jobj [("shipping_address_id", .jstr "a1"),
              ("items", .jarr [.jobj [("variant_id", .jstr "v1"), ("quantity", .jnum (.int 2))],
                               .jobj [("variant_id", .jstr " v1"), ("quantity", .jnum (.int 1))]])]) =
      .error "items must not contain duplicate variant_id values" := by rfl

/-! ## World state and the `handleOrdersCreate` orchestrator -/

/-- A `product_variants` row joined with its product title
(`select("id, sku, price_cents, currency, track_inventory, product:products(title)")`). -/
structure VariantRow where
  id : String
  sku : String
  price_cents : Int
  currency : String
  track_inventory : Bool
  product_title : String
deriving DecidableEq, Repr

/-- An `orders` row (the columns this flow reads or writes); `deleted` models
`deleted_at is not null`. -/
structure OrderRow where
  id : Nat
  order_number : String
  user_id : String
  shipping_address_id : String
  billing_address_id : String
  status : String
  currency : String
  subtotal_cents : Int
  shipping_cents : Int
  tax_cents : Int
  discount_cents : Int
  total_cents : Int
  deleted : Bool
deriving DecidableEq, Repr

/-- An `order_lines` row as built by the handler. -/
structure OrderLineRow where
  order_id : Nat
  variant_id : String
  sku_snapshot : String
  title_snapshot : String
  quantity : Int
  unit_price_cents : Int
  line_subtotal_cents : Int
  line_total_cents : Int
deriving DecidableEq, Repr

/-- An `inventory_movements` audit row as built by the handler (the free-form
`metadata` object is omitted: it is constant up to the order number). -/
structure MovementRow where
  variant_id : String
  reason : String
  delta : Int
  related_order_id : Nat
  actor_user_id : String
deriving DecidableEq, Repr

/-- A line before `order_id` is attached (step 5 of the handler). -/
structure LineData where
  variant_id : String
  sku_snapshot : String
  title_snapshot : String
  quantity : Int
  unit_price_cents : Int
  line_subtotal_cents : Int
  line_total_cents : Int
deriving DecidableEq, Repr

/-- The database and collaborator state one request runs against.
`tokenUsers` models the identity resolver (`auth.getUser`), `addresses` maps
address id to owning user (the RLS policy `addresses_select_own` filters by
owner), `nextOrderId`/`nextOrderNumber` model the id and order-number
generators, and `movementInsertError` is the failure oracle for the
`inventory_movements` insert (`Option.none` = the insert succeeds). -/
structure World where
  tokenUsers : List (String × String)
  addresses : List (String × String)
  variants : List VariantRow
  inventory : InvDB
  orders : List OrderRow
  order_lines : List OrderLineRow
  movements : List MovementRow
  nextOrderId : Nat
  nextOrderNumber : String
  movementInsertError : Option String
deriving DecidableEq, Repr

/-- The parts of the HTTP request the handler inspects: the method, the
bearer token extracted from the `Authorization` header, and the parsed JSON
body (`Option.none` = `req.json()` threw). -/
structure RequestModel where
  method : String
  bearerToken : Option String
  body : Option JVal

/-- The JSON responses the handler produces: an error
`{ error, detail? }` with its HTTP status, or the 200 success body. -/
inductive Resp
  | err (status : Nat) (error : String) (detail : Option String)
  | success (order_id : Nat) (order_number : String) (total_cents : Int)
      (other_orders_total_cents : Int)
deriving DecidableEq, Repr

/-- `variantById.get` (a JavaScript `Map` keyed by `id`): the last matching
row wins. -/
def variantLookup (variants : List VariantRow) (vid : String) : Option VariantRow :=
  variants.reverse.find? (fun v => v.id = vid)

/-- Step 5 of the handler: build the order-line snapshots; `Option.none`
models the thrown `TypeError` when `variantById.get(...)!` misses (the outer
catch turns it into a 500). -/
def computeLines (variants : List VariantRow) : List StockQuantity →
    Option (List LineData)
  | [] => Option.some []
  | it :: rest =>
    match variantLookup variants it.variant_id with
    | Option.none => Option.none
    | Option.some v =>
      match computeLines variants rest with
      | Option.none => Option.none
      | Option.some ls =>
        Option.some
          ({ variant_id := v.id, sku_snapshot := v.sku, title_snapshot := v.product_title,
             quantity := it.quantity, unit_price_cents := v.price_cents,
             line_subtotal_cents := it.quantity * v.price_cents,
             line_total_cents := it.quantity * v.price_cents } :: ls)

/-- The tracked-variant filter of step 8: `variantById.get(l.variant_id)?.track_inventory ?? true`. -/
def trackFlag (variants : List VariantRow) (vid : String) : Bool :=
  match variantLookup variants vid with
  | Option.some v => v.track_inventory
  | Option.none => true

/-- `softDeleteOrder`: `update({deleted_at: now}).eq("id", orderId)` through
the user-scoped client; the RLS policy `orders_update_own` restricts the
update to the caller's own non-deleted rows. -/
def softDeleteOrder (orders : List OrderRow) (userId : String) (orderId : Nat) :
    List OrderRow :=
  orders.map (fun o =>
    if o.id = orderId ∧ o.user_id = userId ∧ o.deleted = false then
      { o with deleted := true }
    else o)

/-- Step 10: `from("orders").select("total_cents").neq("id", order.id)` runs
through the user-scoped client, so the RLS policy `orders_select_own`
(`user_id = auth.uid() and deleted_at is null`) filters the rows before the
`neq` does. -/
def otherOrdersTotal (orders : List OrderRow) (userId : String) (orderId : Nat) : Int :=
  ((orders.filter (fun o =>
      decide (o.user_id = userId ∧ o.deleted = false ∧ o.id ≠ orderId))).map
    (·.total_cents)).sum

/-- The success path tail (step 10 aggregation and step 11 response). -/
def finishOrder (w : World) (userId : String) (orderRow : OrderRow) : Resp × World :=
  (.success orderRow.id orderRow.order_number orderRow.total_cents
    (otherOrdersTotal w.orders userId orderRow.id), w)

/-- Attach the order id to a computed line (step 7). -/
def attachOrder (orderId : Nat) (l : LineData) : OrderLineRow :=
  { order_id := orderId, variant_id := l.variant_id, sku_snapshot := l.sku_snapshot,
    title_snapshot := l.title_snapshot, quantity := l.quantity,
    unit_price_cents := l.unit_price_cents, line_subtotal_cents := l.line_subtotal_cents,
    line_total_cents := l.line_total_cents }

/-- One movement audit row of step 9. -/
def mkMovement (reason : String) (orderId : Nat) (userId : String) (l : LineData) :
    MovementRow :=
  { variant_id := l.variant_id, reason := reason, delta := -l.quantity,
    related_order_id := orderId, actor_user_id := userId }

/-- The order header row inserted in step 6. -/
def newOrderRow (w : World) (userId : String) (payload : NormalizedCreateOrderPayload)
    (subtotal total : Int) : OrderRow :=
  { id := w.nextOrderId, order_number := w.nextOrderNumber, user_id := userId,
    shipping_address_id := payload.shippingAddressId,
    billing_address_id := payload.billingAddressId,
    status := payload.status, currency := payload.currency,
    subtotal_cents := subtotal, shipping_cents := payload.shippingCents,
    tax_cents := payload.taxCents, discount_cents := payload.discountCents,
    total_cents := total, deleted := false }

/-- The inventory-tracked subset of the computed lines (step 8). -/
def trackedOf (variants : List VariantRow) (lines : List LineData) : List LineData :=
  lines.filter (fun l => trackFlag variants l.variant_id)

/-- The `stockQuantities` handed to the inventory ledger (step 8). -/
def stockQs (variants : List VariantRow) (lines : List LineData) : List StockQuantity :=
  (trackedOf variants lines).map (fun l =>
    ({ variant_id := l.variant_id, quantity := l.quantity } : StockQuantity))

/-- Steps 6-11 of the handler: insert the order header and lines, apply the
inventory mutation (rolling back `error.appliedQuantities` and soft-deleting
the order on failure), insert the movement audit rows (rolling back the full
apply and soft-deleting on failure), then aggregate and respond. -/
def persistOrder (w : World) (userId : String) (payload : NormalizedCreateOrderPayload)
    (variants : List VariantRow) (lines : List LineData) (subtotal total : Int) :
    Resp × World :=
  let orderId := w.nextOrderId
  let orderRow := newOrderRow w userId payload subtotal total
  let w2 := { w with orders := w.orders ++ [orderRow], nextOrderId := orderId + 1,
                     order_lines := w.order_lines ++ lines.map (attachOrder orderId) }
  let mode := inventoryModeForStatus payload.status
  let trackedLines := trackedOf variants lines
  let stockQuantities := stockQs variants lines
  match applyInventoryMutation w2.inventory stockQuantities mode with
  | .fail e applied dbAfter =>
    let dbRolled :=
      if applied ≠ [] then rollbackInventoryMutation dbAfter applied mode else dbAfter
    let w3 := { w2 with inventory := dbRolled,
                        orders := softDeleteOrder w2.orders userId orderId }
    (.err 409 "Inventory update failed" (Option.some (invErrMessage e)), w3)
  | .ok dbOk =>
    let w3 := { w2 with inventory := dbOk }
    match movementReasonForMode mode with
    | Option.some reason =>
      if trackedLines ≠ [] then
        match w3.movementInsertError with
        | Option.some msg =>
          let w4 := { w3 with
            inventory := rollbackInventoryMutation w3.inventory stockQuantities mode,
            orders := softDeleteOrder w3.orders userId orderId }
          (.err 500 "Inventory movement insert failed" (Option.some msg), w4)
        | Option.none =>
          let w4 := { w3 with
            movements := w3.movements ++ trackedLines.map (mkMovement reason orderId userId) }
          finishOrder w4 userId orderRow
      else finishOrder w3 userId orderRow
    | Option.none => finishOrder w3 userId orderRow

/-- The `product_variants` batch lookup of step 4:
`.in("id", variantIds)` returns the visible rows whose id is requested. -/
def requestVariants (w : World) (payload : NormalizedCreateOrderPayload) :
    List VariantRow :=
  w.variants.filter (fun v => (payload.items.map (·.variant_id)).contains v.id)

/-- Steps 3-5 of the handler: address ownership checks (403), batch variant
lookup with exact-count check (400), the single-currency check (400), line
and total computation, and the negative-total guard (400). -/
def handleWithPayload (w : World) (userId : String)
    (payload : NormalizedCreateOrderPayload) : Resp × World :=
  if List.lookup payload.shippingAddressId w.addresses ≠ Option.some userId then
    (.err 403 "shipping_address_id not accessible for this user" Option.none, w)
  else if List.lookup payload.billingAddressId w.addresses ≠ Option.some userId then
    (.err 403 "billing_address_id not accessible for this user" Option.none, w)
  else
    let variantIds := payload.items.map (·.variant_id)
    let variants := requestVariants w payload
    if variants.length ≠ variantIds.length then
      (.err 400 "One or more variant_id values are invalid" Option.none, w)
    else
      match variants.find? (fun v => v.currency ≠ payload.currency) with
      | Option.some v =>
        (.err 400 "Currency mismatch"
          (Option.some ("Variant " ++ v.sku ++ " currency " ++ v.currency ++ " != " ++ payload.currency)), w)
      | Option.none =>
        match computeLines variants payload.items with
        | Option.none => (.err 500 "Internal Server Error" Option.none, w)
        | Option.some lines =>
          let subtotal := (lines.map (·.line_subtotal_cents)).sum
          let total := subtotal + payload.shippingCents + payload.taxCents -
            payload.discountCents
          if total < 0 then (.err 400 "total_cents must not be negative" Option.none, w)
          else persistOrder w userId payload variants lines subtotal total

/-- `handleOrdersCreate` from the source: the method guard, bearer-token
extraction, identity resolution, JSON parsing and payload normalization
(a `ValidationError` becomes a 400), then the order pipeline. -/
def handleOrdersCreate (req : RequestModel) (w : World) : Resp × World :=
  if req.method ≠ "POST" then (.err 405 "Method Not Allowed" Option.none, w)
  else
    match req.bearerToken with
    | Option.none => (.err 401 "Missing Bearer token" Option.none, w)
    | Option.some token =>
      match List.lookup token w.tokenUsers with
      | Option.none => (.err 401 "Invalid token" Option.none, w)
      | Option.some userId =>
        match req.body with
        | Option.none => (.err 400 "Invalid JSON body" Option.none, w)
        | Option.some body =>
          match normalizeCreateOrderPayload body with
          | .error msg => (.err 400 msg Option.none, w)
          | .ok payload => handleWithPayload w userId payload

/-- A tracked EUR variant used by the concrete test worlds. -/
def testVariant1 : VariantRow :=
  { id := "v1", sku := "SKU1", price_cents := 100, currency := "EUR",
    track_inventory := true, product_title := "Coffee Mug" }

/-- An untracked EUR variant used by the concrete test worlds. -/
def testVariant2 : VariantRow :=
  { id := "v2", sku := "SKU2", price_cents := 300, currency := "EUR",
    track_inventory := false, product_title := "T-Shirt" }

/-- A small world: one user with one address, the two variants above,
`v1` stocked at `on_hand = 10, reserved = 1`. -/
def testWorld : World :=
  { tokenUsers := [("tok", "u1")]
    addresses := [("a1", "u1")]
    variants := [testVariant1, testVariant2]
    inventory := [("v1", ⟨10, 1⟩)]
    orders := []
    order_lines := []
    movements := []
    nextOrderId := 7
    nextOrderNumber := "ORD-1"
    movementInsertError := Option.none }

/-- The JSON body of the valid test request: items `[{v1, 2}, {v2, 1}]`,
defaults everywhere else. -/
def testBody : JVal :=
  .jobj
    [("shipping_address_id", .jstr "a1"),
     ("items", .jarr
       [.jobj [("variant_id", .jstr "v1"), ("quantity", .jnum (.int 2))],
        .jobj [("variant_id", .jstr "v2"), ("quantity", .jnum (.int 1))]])]

/-- A valid request carrying `testBody`. -/
def testReq : RequestModel :=
  { method := "POST", bearerToken := Option.some "tok",
    body := Option.some testBody }

/-- The normalized form of `testBody`. -/
def testPayloadNorm : NormalizedCreateOrderPayload :=
  { shippingAddressId := "a1", billingAddressId := "a1", currency := "EUR",
    shippingCents := 0, taxCents := 0, discountCents := 0, status := "placed",
    items := [⟨"v1", 2⟩, ⟨"v2", 1⟩] }

/-- The order lines the pricing step computes for `testBody` in `testWorld`. -/
def testLines : List LineData :=
  [{ variant_id := "v1", sku_snapshot := "SKU1", title_snapshot := "Coffee Mug",
     quantity := 2, unit_price_cents := 100, line_subtotal_cents := 200,
     line_total_cents := 200 },
   { variant_id := "v2", sku_snapshot := "SKU2", title_snapshot := "T-Shirt",
     quantity := 1, unit_price_cents := 300, line_subtotal_cents := 300,
     line_total_cents := 300 }]

example : (handleOrdersCreate testReq testWorld).1 = .success 7 "ORD-1" 500 0 := by rfl

example : (handleOrdersCreate testReq testWorld).2.inventory = [("v1", ⟨10, 3⟩)] := by rfl

example :
    (handleOrdersCreate testReq testWorld).2.movements =
      [{ variant_id := "v1", reason := "reserve", delta := -2, related_order_id := 7,
         actor_user_id := "u1" }] := by rfl

/-! ## Two concurrent requests racing on one inventory row

Each order-creation request interacts with a contended inventory row in two
database round trips of `applyInventoryMutation`: the snapshot read, then the
availability check plus compare-and-swap write (the check uses only the
snapshot, so it belongs to the write step).  Everything else a request does
touches request-private rows.  A schedule is the interleaving of these two
atomic steps per request. -/

/-- Outcome of one racing request: still running, succeeded, failed the
`available < quantity` check, or had its CAS rejected. -/
inductive ReqOutcome
  | pending
  | success
  | insufficient
  | conflict
deriving DecidableEq, Repr

/-- Per-request program counter and data: the snapshot once read, and the
outcome once the write step ran. -/
structure ProcState where
  snapshot : Option InventoryCounts
  outcome : ReqOutcome
deriving DecidableEq, Repr

/-- The shared inventory row plus both requests' local states. -/
structure RaceConfig where
  inv : InventoryCounts
  p1 : ProcState
  p2 : ProcState
deriving DecidableEq, Repr

/-- One step of one request: first scheduled step reads the row into the
snapshot; second step checks `available` from the snapshot and, if the row
still equals the snapshot, writes the mode's target counters, otherwise
reports the concurrency conflict. Further steps are no-ops. -/
def procStep (mode : InventoryMode) (q : Int) (inv : InventoryCounts) (p : ProcState) :
    InventoryCounts × ProcState :=
  match p.snapshot with
  | Option.none => (inv, { p with snapshot := Option.some inv })
  | Option.some snap =>
    match p.outcome with
    | .pending =>
      if snap.on_hand - snap.reserved < q then (inv, { p with outcome := .insufficient })
      else if inv = snap then (nextVal mode q snap, { p with outcome := .success })
      else (inv, { p with outcome := .conflict })
    | _ => (inv, p)

/-- Run the step of the scheduled request (`true` = request 1). -/
def raceStep (mode : InventoryMode) (q1 q2 : Int) (c : RaceConfig) (who : Bool) :
    RaceConfig :=
  if who then
    let r := procStep mode q1 c.inv c.p1
    { c with inv := r.1, p1 := r.2 }
  else
    let r := procStep mode q2 c.inv c.p2
    { c with inv := r.1, p2 := r.2 }

/-- The race configuration before any step runs. -/
def initRace (inv : InventoryCounts) : RaceConfig :=
  { inv := inv, p1 := { snapshot := Option.none, outcome := .pending },
    p2 := { snapshot := Option.none, outcome := .pending } }

/-- Run a whole schedule of interleaved steps. -/
def runSchedule (mode : InventoryMode) (q1 q2 : Int) (inv : InventoryCounts)
    (sched : List Bool) : RaceConfig :=
  sched.foldl (raceStep mode q1 q2) (initRace inv)

example :
    (runSchedule .reserve 2 2 ⟨3, 0⟩ [true, false, true, false]).p1.outcome =
      .success := by decide

example :
    (runSchedule .reserve 2 2 ⟨3, 0⟩ [true, false, true, false]).p2.outcome =
      .conflict := by decide

example :
    (runSchedule .reserve 2 2 ⟨3, 0⟩ [true, true, false, false]).p2.outcome =
      .insufficient := by decide

/-! ## Association-list lemmas used by the ledger proofs -/

theorem lookup_cons_self {β : Type} (k : String) (v : β) (l : List (String × β)) :
    List.lookup k ((k, v) :: l) = Option.some v := by
  simp [List.lookup_cons]

theorem lookup_cons_ne {β : Type} {k a : String} (v : β) (l : List (String × β))
    (h : k ≠ a) : List.lookup k ((a, v) :: l) = List.lookup k l := by
  rw [List.lookup_cons]
  have hb : (k == a) = false := by simp [h]
  rw [hb]

theorem lookup_append_assoc {β : Type} (k : String) (A B : List (String × β)) :
    List.lookup k (A ++ B) =
      match List.lookup k A with
      | Option.some v => Option.some v
      | Option.none => List.lookup k B := by
  induction A with
  | nil => simp
  | cons hd tl ih =>
    rcases hd with ⟨a, v⟩
    by_cases h : k = a
    · subst h
      rw [List.cons_append, lookup_cons_self, lookup_cons_self]
    · rw [List.cons_append, lookup_cons_ne v (tl ++ B) h, lookup_cons_ne v tl h, ih]

theorem lookup_eq_none_of_keys {β : Type} (k : String) (l : List (String × β))
    (h : ∀ r ∈ l, r.1 ≠ k) : List.lookup k l = Option.none := by
  induction l with
  | nil => simp
  | cons hd tl ih =>
    rcases hd with ⟨a, v⟩
    have hak : k ≠ a := fun he => (h (a, v) (List.mem_cons_self _ _)) he.symm
    rw [lookup_cons_ne v tl hak]
    exact ih (fun r hr => h r (List.mem_cons_of_mem _ hr))

theorem lookup_some_mem {β : Type} {k : String} {v : β} {l : List (String × β)}
    (h : List.lookup k l = Option.some v) : (k, v) ∈ l := by
  induction l with
  | nil => simp at h
  | cons hd tl ih =>
    rcases hd with ⟨a, b⟩
    by_cases hk : k = a
    · subst hk
      rw [lookup_cons_self] at h
      cases h
      exact List.mem_cons_self _ _
    · rw [lookup_cons_ne b tl hk] at h
      exact List.mem_cons_of_mem _ (ih h)

theorem lookup_some_key_mem {β : Type} {k : String} {v : β} {l : List (String × β)}
    (h : List.lookup k l = Option.some v) : k ∈ l.map Prod.fst := by
  exact List.mem_map_of_mem Prod.fst (lookup_some_mem h)

theorem lookup_reverse_of_nodup {β : Type} (k : String) (l : List (String × β))
    (h : (l.map Prod.fst).Nodup) :
    List.lookup k l.reverse = List.lookup k l := by
  induction l with
  | nil => simp
  | cons hd tl ih =>
    rcases hd with ⟨a, v⟩
    simp only [List.map_cons, List.nodup_cons] at h
    rw [List.reverse_cons, lookup_append_assoc]
    by_cases hk : k = a
    · subst hk
      rw [lookup_cons_self]
      have : List.lookup k tl.reverse = Option.none := by
        apply lookup_eq_none_of_keys
        intro r hr hrk
        exact h.1 (hrk ▸ List.mem_map_of_mem Prod.fst (List.mem_reverse.mp hr))
      rw [this]
      simp [List.lookup_cons]
    · rw [lookup_cons_ne v tl hk, ih h.2]
      have hb : (k == a) = false := by simp [hk]
      cases hl : List.lookup k tl <;> simp [List.lookup_cons, hb, hl]

theorem lookup_readInventoryRows (db : InvDB) (ids : List String) (v : String)
    (hv : v ∈ ids) :
    List.lookup v (readInventoryRows db ids) = List.lookup v db := by
  induction db with
  | nil => simp [readInventoryRows]
  | cons hd tl ih =>
    rcases hd with ⟨a, c⟩
    simp only [readInventoryRows] at *
    by_cases hk : v = a
    · subst hk
      have hc : ids.contains v = true := by simp [hv]
      rw [List.filter_cons_of_pos (p := fun (r : String × InventoryCounts) => ids.contains r.1) (by simpa using hc),
        lookup_cons_self, lookup_cons_self]
    · cases hc : ids.contains a with
      | false =>
        rw [List.filter_cons_of_neg (p := fun (r : String × InventoryCounts) => ids.contains r.1) (by simpa using hc),
          ih, lookup_cons_ne c tl hk]
      | true =>
        rw [List.filter_cons_of_pos (p := fun (r : String × InventoryCounts) => ids.contains r.1) (by simpa using hc),
          lookup_cons_ne c _ hk, lookup_cons_ne c tl hk, ih]

theorem readInventoryRows_keys_nodup (db : InvDB) (ids : List String)
    (h : (db.map Prod.fst).Nodup) :
    ((readInventoryRows db ids).map Prod.fst).Nodup := by
  have hsub : List.Sublist ((readInventoryRows db ids).map Prod.fst)
      (db.map Prod.fst) := (List.filter_sublist db).map Prod.fst
  exact h.sublist hsub

theorem lastLookup_readInventoryRows (db : InvDB) (ids : List String) (v : String)
    (hnd : (db.map Prod.fst).Nodup) (hv : v ∈ ids) :
    lastLookup (readInventoryRows db ids) v = List.lookup v db := by
  unfold lastLookup
  rw [lookup_reverse_of_nodup v _ (readInventoryRows_keys_nodup db ids hnd)]
  exact lookup_readInventoryRows db ids v hv

theorem readInventoryRows_length (db : InvDB) (ids : List String)
    (hnd : (db.map Prod.fst).Nodup) (hids : ids.Nodup)
    (hall : ∀ i ∈ ids, i ∈ db.map Prod.fst) :
    (readInventoryRows db ids).length = ids.length := by
  induction db generalizing ids with
  | nil =>
    have : ids = [] := by
      cases ids with
      | nil => rfl
      | cons i is => exact absurd (hall i (List.mem_cons_self _ _)) (by simp)
    simp [readInventoryRows, this]
  | cons hd tl ih =>
    rcases hd with ⟨k, c⟩
    simp only [List.map_cons, List.nodup_cons] at hnd
    by_cases hk : k ∈ ids
    · have hc : ids.contains k = true := by simp [hk]
      have hfeq : tl.filter (fun r => ids.contains r.1) =
          tl.filter (fun r => (ids.erase k).contains r.1) := by
        apply List.filter_congr
        intro r hr
        have hrk : r.1 ≠ k := by
          intro he
          exact hnd.1 (he ▸ List.mem_map_of_mem Prod.fst hr)
        by_cases hri : r.1 ∈ ids
        · have : r.1 ∈ ids.erase k := (List.mem_erase_of_ne hrk).mpr hri
          simp [hri, this]
        · have : r.1 ∉ ids.erase k := fun hmem =>
            hri ((List.mem_erase_of_ne hrk).mp hmem)
          simp [hri, this]
      have ihlen := ih (ids.erase k) hnd.2 (hids.erase k)
        (fun i hi => by
          have hik : i ≠ k := (hids.mem_erase_iff.mp hi).1
          have hiids : i ∈ ids := (hids.mem_erase_iff.mp hi).2
          have := hall i hiids
          simp only [List.map_cons, List.mem_cons] at this
          rcases this with h1 | h2
          · exact absurd h1 hik
          · exact h2)
      have hpos : 0 < ids.length := List.length_pos.mpr (by
        intro he
        rw [he] at hk
        simp at hk)
      simp only [readInventoryRows] at *
      rw [List.filter_cons_of_pos (p := fun (r : String × InventoryCounts) => ids.contains r.1) (by simpa using hc),
        List.length_cons, hfeq, ihlen, List.length_erase_of_mem hk]
      omega
    · have hc : ids.contains k = false := by simp [hk]
      simp only [readInventoryRows] at *
      rw [List.filter_cons_of_neg (p := fun (r : String × InventoryCounts) => ids.contains r.1) (by simpa using hc)]
      exact ih ids hnd.2 hids (fun i hi => by
        have := hall i hi
        simp only [List.map_cons, List.mem_cons] at this
        rcases this with h1 | h2
        · exact absurd (h1 ▸ hi) hk
        · exact h2)

theorem casUpdateAll_keys (db : InvDB) (v : String) (e t : InventoryCounts) :
    (casUpdateAll db v e t).1.map Prod.fst = db.map Prod.fst := by
  induction db with
  | nil => rfl
  | cons hd tl ih =>
    rcases hd with ⟨k, val⟩
    by_cases h : k = v ∧ val = e <;> simp [casUpdateAll, h, ih]

theorem casUpdateAll_no_key (db : InvDB) (v : String) (e t : InventoryCounts)
    (h : ∀ r ∈ db, r.1 ≠ v) : casUpdateAll db v e t = (db, 0) := by
  induction db with
  | nil => rfl
  | cons hd tl ih =>
    rcases hd with ⟨k, val⟩
    have hk : k ≠ v := h (k, val) (List.mem_cons_self _ _)
    have hcond : ¬(k = v ∧ val = e) := fun hc => hk hc.1
    simp [casUpdateAll, hcond, ih (fun r hr => h r (List.mem_cons_of_mem _ hr))]

theorem casUpdateAll_of_lookup (db : InvDB) (v : String) (e t : InventoryCounts)
    (hnd : (db.map Prod.fst).Nodup) (hl : List.lookup v db = Option.some e) :
    (casUpdateAll db v e t).2 = 1 ∧
    List.lookup v (casUpdateAll db v e t).1 = Option.some t ∧
    ∀ u, u ≠ v → List.lookup u (casUpdateAll db v e t).1 = List.lookup u db := by
  induction db with
  | nil => simp at hl
  | cons hd tl ih =>
    rcases hd with ⟨k, val⟩
    simp only [List.map_cons, List.nodup_cons] at hnd
    by_cases hk : k = v
    · subst hk
      rw [lookup_cons_self] at hl
      have hve : val = e := by cases hl; rfl
      subst hve
      have htl : casUpdateAll tl k val t = (tl, 0) :=
        casUpdateAll_no_key tl k val t (fun r hr hrk =>
          hnd.1 (hrk ▸ List.mem_map_of_mem Prod.fst hr))
      have hstep : casUpdateAll ((k, val) :: tl) k val t = ((k, t) :: tl, 1) := by
        simp [casUpdateAll, htl]
      rw [hstep]
      refine ⟨rfl, lookup_cons_self k t tl, ?_⟩
      intro u hu
      rw [lookup_cons_ne t tl hu, lookup_cons_ne val tl hu]
    · have hcond : ¬(k = v ∧ val = e) := fun hc => hk hc.1
      rw [lookup_cons_ne val tl (fun he => hk he.symm)] at hl
      obtain ⟨ih1, ih2, ih3⟩ := ih hnd.2 hl
      have hstep : casUpdateAll ((k, val) :: tl) v e t =
          ((k, val) :: (casUpdateAll tl v e t).1, (casUpdateAll tl v e t).2) := by
        simp [casUpdateAll, hcond]
      rw [hstep]
      refine ⟨ih1, ?_, ?_⟩
      · rw [lookup_cons_ne val _ (fun he => hk he.symm)]
        exact ih2
      · intro u hu
        by_cases huk : u = k
        · subst huk
          rw [lookup_cons_self, lookup_cons_self]
        · rw [lookup_cons_ne val _ huk, lookup_cons_ne val tl huk]
          exact ih3 u hu

theorem casUpdateAll_count_zero (db : InvDB) (v : String) (e t : InventoryCounts)
    (h : (casUpdateAll db v e t).2 = 0) : (casUpdateAll db v e t).1 = db := by
  induction db with
  | nil => rfl
  | cons hd tl ih =>
    rcases hd with ⟨k, val⟩
    by_cases hc : k = v ∧ val = e
    · simp [casUpdateAll, hc] at h
    · simp only [casUpdateAll, if_neg hc] at h ⊢
      rw [ih h]

theorem casUpdateAll_count_le_one (db : InvDB) (v : String) (e t : InventoryCounts)
    (hnd : (db.map Prod.fst).Nodup) : (casUpdateAll db v e t).2 ≤ 1 := by
  induction db with
  | nil => simp [casUpdateAll]
  | cons hd tl ih =>
    rcases hd with ⟨k, val⟩
    simp only [List.map_cons, List.nodup_cons] at hnd
    by_cases hc : k = v ∧ val = e
    · have htl : casUpdateAll tl v e t = (tl, 0) :=
        casUpdateAll_no_key tl v e t (fun r hr hrk =>
          hnd.1 ((hrk.trans hc.1.symm) ▸ List.mem_map_of_mem Prod.fst hr))
      simp [casUpdateAll, hc, htl]
    · simp only [casUpdateAll, if_neg hc]
      exact ih hnd.2

theorem updateAll_cons (k : String) (val : InventoryCounts) (v : String)
    (t : InventoryCounts) (tl : InvDB) :
    updateAll ((k, val) :: tl) v t =
      (if k = v then (k, t) else (k, val)) :: updateAll tl v t := rfl

theorem updateAll_keys (db : InvDB) (v : String) (t : InventoryCounts) :
    (updateAll db v t).map Prod.fst = db.map Prod.fst := by
  induction db with
  | nil => rfl
  | cons hd tl ih =>
    rcases hd with ⟨k, val⟩
    rw [updateAll_cons]
    by_cases h : k = v
    · rw [if_pos h]
      simp [ih]
    · rw [if_neg h]
      simp [ih]

theorem updateAll_lookup_self (db : InvDB) (v : String) (t : InventoryCounts) :
    List.lookup v (updateAll db v t) = (List.lookup v db).map (fun _ => t) := by
  induction db with
  | nil => rfl
  | cons hd tl ih =>
    rcases hd with ⟨k, val⟩
    rw [updateAll_cons]
    by_cases h : k = v
    · subst h
      rw [if_pos rfl, lookup_cons_self, lookup_cons_self]
      rfl
    · rw [if_neg h, lookup_cons_ne val _ (fun he => h he.symm),
        lookup_cons_ne val tl (fun he => h he.symm), ih]

theorem updateAll_lookup_ne (db : InvDB) (v u : String) (t : InventoryCounts)
    (h : u ≠ v) : List.lookup u (updateAll db v t) = List.lookup u db := by
  induction db with
  | nil => rfl
  | cons hd tl ih =>
    rcases hd with ⟨k, val⟩
    rw [updateAll_cons]
    by_cases hk : k = v
    · subst hk
      rw [if_pos rfl, lookup_cons_ne t _ h, lookup_cons_ne val tl h, ih]
    · rw [if_neg hk]
      by_cases huk : u = k
      · subst huk
        rw [lookup_cons_self, lookup_cons_self]
      · rw [lookup_cons_ne val _ huk, lookup_cons_ne val tl huk, ih]

/-! ## The `0 ≤ reserved ≤ on_hand` invariant (claim C2) -/

/-- The schema invariant on the `inventory` table: the check constraints
`reserved >= 0` and `reserved <= on_hand` (`on_hand >= 0` follows). -/
def invariantOK (db : InvDB) : Prop :=
  ∀ r ∈ db, 0 ≤ r.2.reserved ∧ r.2.reserved ≤ r.2.on_hand

instance (db : InvDB) : Decidable (invariantOK db) :=
  inferInstanceAs (Decidable (∀ r ∈ db, 0 ≤ r.2.reserved ∧ r.2.reserved ≤ r.2.on_hand))

theorem casUpdateAll_invariant (db : InvDB) (v : String) (e t : InventoryCounts)
    (hdb : invariantOK db)
    (ht : (0 ≤ e.reserved ∧ e.reserved ≤ e.on_hand) →
      0 ≤ t.reserved ∧ t.reserved ≤ t.on_hand) :
    invariantOK (casUpdateAll db v e t).1 := by
  induction db with
  | nil => intro r hr; simp [casUpdateAll] at hr
  | cons hd tl ih =>
    rcases hd with ⟨k, val⟩
    have hdbtl : invariantOK tl := fun r hr => hdb r (List.mem_cons_of_mem _ hr)
    by_cases hc : k = v ∧ val = e
    · have hstep : casUpdateAll ((k, val) :: tl) v e t =
          ((k, t) :: (casUpdateAll tl v e t).1, (casUpdateAll tl v e t).2 + 1) := by
        simp [casUpdateAll, hc]
      rw [hstep]
      intro r hr
      rcases List.mem_cons.mp hr with h1 | h2
      · subst h1
        exact ht (hc.2 ▸ hdb (k, val) (List.mem_cons_self _ _))
      · exact ih hdbtl r h2
    · have hstep : casUpdateAll ((k, val) :: tl) v e t =
          ((k, val) :: (casUpdateAll tl v e t).1, (casUpdateAll tl v e t).2) := by
        simp [casUpdateAll, hc]
      rw [hstep]
      intro r hr
      rcases List.mem_cons.mp hr with h1 | h2
      · subst h1
        exact hdb (k, val) (List.mem_cons_self _ _)
      · exact ih hdbtl r h2

theorem nextVal_invariant (mode : InventoryMode) (q : Int) (cur : InventoryCounts)
    (hq : 0 ≤ q) (havail : ¬(cur.on_hand - cur.reserved < q))
    (hcur : 0 ≤ cur.reserved ∧ cur.reserved ≤ cur.on_hand) :
    0 ≤ (nextVal mode q cur).reserved ∧
      (nextVal mode q cur).reserved ≤ (nextVal mode q cur).on_hand := by
  cases mode <;> simp [nextVal] <;> omega

theorem applyLoop_invariant (snap : InvDB) (mode : InventoryMode) :
    ∀ (qs : List StockQuantity) (db : InvDB) (applied : List StockQuantity)
      (db' : InvDB), (∀ q ∈ qs, 0 ≤ q.quantity) → invariantOK db →
      applyLoop snap mode db applied qs = .ok db' → invariantOK db' := by
  intro qs
  induction qs with
  | nil =>
    intro db applied db' _ hdb h
    cases h
    assumption
  | cons q rest ih =>
    intro db applied db' hq hdb h
    unfold applyLoop at h
    cases hsnap : lastLookup snap q.variant_id with
    | none =>
      simp only [hsnap] at h
      cases h
    | some cur =>
      simp only [hsnap] at h
      by_cases havail : cur.on_hand - cur.reserved < q.quantity
      · rw [if_pos havail] at h; cases h
      · rw [if_neg havail] at h
        by_cases hcnt : (casUpdateAll db q.variant_id cur
            (nextVal mode q.quantity cur)).2 = 1
        · rw [if_pos hcnt] at h
          exact ih _ _ db'
            (fun p hp => hq p (List.mem_cons_of_mem _ hp))
            (casUpdateAll_invariant db q.variant_id cur _ hdb
              (fun hcur => nextVal_invariant mode q.quantity cur
                (hq q (List.mem_cons_self _ _)) havail hcur)) h
        · rw [if_neg hcnt] at h
          by_cases hz : (casUpdateAll db q.variant_id cur
              (nextVal mode q.quantity cur)).2 = 0
          · rw [if_pos hz] at h; cases h
          · rw [if_neg hz] at h; cases h

theorem applyInventoryMutation_invariant (db : InvDB) (qs : List StockQuantity)
    (mode : InventoryMode) (db' : InvDB) (hq : ∀ q ∈ qs, 0 ≤ q.quantity)
    (hdb : invariantOK db) (h : applyInventoryMutation db qs mode = .ok db') :
    invariantOK db' := by
  unfold applyInventoryMutation at h
  by_cases hguard : mode = .none ∨ qs = []
  · rw [if_pos hguard] at h
    cases h
    assumption
  · rw [if_neg hguard] at h
    by_cases hlen : (readInventoryRows db (qs.map (·.variant_id))).length ≠
        (qs.map (·.variant_id)).length
    · rw [if_pos hlen] at h; cases h
    · rw [if_neg hlen] at h
      exact applyLoop_invariant _ mode qs db [] db' hq hdb h

/-- A sequence of inventory applies, each in its own mode, that only
continues while every apply succeeds. -/
def applyBatches : List (InventoryMode × List StockQuantity) → InvDB → Option InvDB
  | [], db => Option.some db
  | (m, qs) :: rest, db =>
    match applyInventoryMutation db qs m with
    | .ok db' => applyBatches rest db'
    | .fail _ _ _ => Option.none

/-- C2: every inventory record satisfying `0 ≤ reserved ≤ on_hand` before an
apply still satisfies it after any sequence of successful inventory applies,
in any mode, for the positive quantities the validated flow supplies
(`reserve` only adds a quantity bounded by `on_hand - reserved` to `reserved`;
`purchase` only subtracts such a quantity from `on_hand`). -/
theorem c2_invariant_preserved (batches : List (InventoryMode × List StockQuantity))
    (db db' : InvDB) (hq : ∀ b ∈ batches, ∀ q ∈ b.2, 0 ≤ q.quantity)
    (hdb : invariantOK db) (h : applyBatches batches db = Option.some db') :
    invariantOK db' := by
  induction batches generalizing db with
  | nil =>
    unfold applyBatches at h
    cases h
    assumption
  | cons b rest ih =>
    rcases b with ⟨m, qs⟩
    unfold applyBatches at h
    cases happ : applyInventoryMutation db qs m with
    | ok db1 =>
      rw [happ] at h
      exact ih db1 (fun b hb => hq b (List.mem_cons_of_mem _ hb))
        (applyInventoryMutation_invariant db qs m db1
          (hq (m, qs) (List.mem_cons_self _ _)) hdb happ) h
    | fail e applied dbf =>
      rw [happ] at h
      cases h

theorem c2_invariant_preserved_witness :
    invariantOK [("v1", (⟨7, 3⟩ : InventoryCounts))] :=
  c2_invariant_preserved
    [(.reserve, [⟨"v1", 2⟩]), (.purchase, [⟨"v1", 3⟩])]
    [("v1", ⟨10, 1⟩)] [("v1", ⟨7, 3⟩)]
    (by decide) (by decide) (by rfl)

/-! ## Per-variant behavior of the apply loop (claims C3, C6, C7) -/

theorem applyLoop_ok_spec (snap : InvDB) (mode : InventoryMode) :
    ∀ (qs : List StockQuantity) (db : InvDB) (applied : List StockQuantity)
      (db' : InvDB),
      (db.map Prod.fst).Nodup →
      (qs.map (·.variant_id)).Nodup →
      (∀ q ∈ qs, lastLookup snap q.variant_id = List.lookup q.variant_id db) →
      applyLoop snap mode db applied qs = .ok db' →
      db'.map Prod.fst = db.map Prod.fst ∧
      (∀ q ∈ qs, ∃ cur, List.lookup q.variant_id db = Option.some cur ∧
        ¬(cur.on_hand - cur.reserved < q.quantity) ∧
        List.lookup q.variant_id db' = Option.some (nextVal mode q.quantity cur)) ∧
      (∀ v, v ∉ qs.map (·.variant_id) → List.lookup v db' = List.lookup v db) := by
  intro qs
  induction qs with
  | nil =>
    intro db applied db' _ _ _ h
    cases h
    exact ⟨rfl, by simp, fun v _ => rfl⟩
  | cons q rest ih =>
    intro db applied db' hnd hqnd hagree h
    unfold applyLoop at h
    cases hsnap : lastLookup snap q.variant_id with
    | none =>
      simp only [hsnap] at h
      cases h
    | some cur =>
      simp only [hsnap] at h
      have hlq : List.lookup q.variant_id db = Option.some cur :=
        (hagree q (List.mem_cons_self _ _)).symm.trans hsnap
      by_cases havail : cur.on_hand - cur.reserved < q.quantity
      · rw [if_pos havail] at h
        cases h
      · rw [if_neg havail] at h
        obtain ⟨hcnt, hlkv, hlku⟩ := casUpdateAll_of_lookup db q.variant_id cur
          (nextVal mode q.quantity cur) hnd hlq
        rw [if_pos hcnt] at h
        have hkeys2 := casUpdateAll_keys db q.variant_id cur (nextVal mode q.quantity cur)
        simp only [List.map_cons, List.nodup_cons] at hqnd
        have hnd2 : ((casUpdateAll db q.variant_id cur
            (nextVal mode q.quantity cur)).1.map Prod.fst).Nodup := by
          rw [hkeys2]
          exact hnd
        have hagree2 : ∀ p ∈ rest, lastLookup snap p.variant_id =
            List.lookup p.variant_id (casUpdateAll db q.variant_id cur
              (nextVal mode q.quantity cur)).1 := by
          intro p hp
          rw [hlku p.variant_id
            (fun he => hqnd.1 (he ▸ List.mem_map_of_mem (·.variant_id) hp))]
          exact hagree p (List.mem_cons_of_mem _ hp)
        obtain ⟨ihkeys, ihmem, ihframe⟩ := ih _ _ db' hnd2 hqnd.2 hagree2 h
        refine ⟨ihkeys.trans hkeys2, ?_, ?_⟩
        · intro p hp
          rcases List.mem_cons.mp hp with h1 | h2
          · subst h1
            refine ⟨cur, hlq, havail, ?_⟩
            rw [ihframe p.variant_id hqnd.1, hlkv]
          · obtain ⟨cur2, hc1, hc2, hc3⟩ := ihmem p h2
            refine ⟨cur2, ?_, hc2, hc3⟩
            rw [← hc1]
            exact (hlku p.variant_id
              (fun he => hqnd.1 (he ▸ List.mem_map_of_mem (·.variant_id) h2))).symm
        · intro v hv
          simp only [List.map_cons, List.mem_cons] at hv
          push_neg at hv
          rw [ihframe v hv.2, hlku v hv.1]

theorem applyLoop_total (snap : InvDB) (mode : InventoryMode) :
    ∀ (qs : List StockQuantity) (db : InvDB) (applied : List StockQuantity),
      (db.map Prod.fst).Nodup →
      (qs.map (·.variant_id)).Nodup →
      (∀ q ∈ qs, ∃ cur, lastLookup snap q.variant_id = Option.some cur ∧
        List.lookup q.variant_id db = Option.some cur ∧
        ¬(cur.on_hand - cur.reserved < q.quantity)) →
      ∃ db', applyLoop snap mode db applied qs = .ok db' := by
  intro qs
  induction qs with
  | nil =>
    intro db applied _ _ _
    exact ⟨db, rfl⟩
  | cons q rest ih =>
    intro db applied hnd hqnd hok
    obtain ⟨cur, hs, hl, hav⟩ := hok q (List.mem_cons_self _ _)
    obtain ⟨hcnt, hlkv, hlku⟩ := casUpdateAll_of_lookup db q.variant_id cur
      (nextVal mode q.quantity cur) hnd hl
    simp only [List.map_cons, List.nodup_cons] at hqnd
    have hnd2 : ((casUpdateAll db q.variant_id cur
        (nextVal mode q.quantity cur)).1.map Prod.fst).Nodup := by
      rw [casUpdateAll_keys]
      exact hnd
    have hok2 : ∀ p ∈ rest, ∃ c, lastLookup snap p.variant_id = Option.some c ∧
        List.lookup p.variant_id (casUpdateAll db q.variant_id cur
          (nextVal mode q.quantity cur)).1 = Option.some c ∧
        ¬(c.on_hand - c.reserved < p.quantity) := by
      intro p hp
      obtain ⟨c, h1, h2, h3⟩ := hok p (List.mem_cons_of_mem _ hp)
      exact ⟨c, h1, by
        rw [hlku p.variant_id
          (fun he => hqnd.1 (he ▸ List.mem_map_of_mem (·.variant_id) hp))]
        exact h2, h3⟩
    obtain ⟨db', hdb'⟩ := ih _ (applied ++ [q]) hnd2 hqnd.2 hok2
    refine ⟨db', ?_⟩
    unfold applyLoop
    simp only [hs]
    rw [if_neg hav, if_pos hcnt]
    exact hdb'

theorem applyLoop_fail_spec (snap : InvDB) (mode : InventoryMode) :
    ∀ (qs : List StockQuantity) (db : InvDB) (applied0 : List StockQuantity)
      (e : InvErr) (applied : List StockQuantity) (db'' : InvDB),
      (db.map Prod.fst).Nodup →
      (qs.map (·.variant_id)).Nodup →
      (∀ q ∈ qs, lastLookup snap q.variant_id = List.lookup q.variant_id db) →
      applyLoop snap mode db applied0 qs = .fail e applied db'' →
      ∃ pre suf, qs = pre ++ suf ∧ applied = applied0 ++ pre ∧
        (∀ q ∈ pre, ∃ cur, List.lookup q.variant_id db = Option.some cur ∧
          ¬(cur.on_hand - cur.reserved < q.quantity) ∧
          List.lookup q.variant_id db'' = Option.some (nextVal mode q.quantity cur)) ∧
        (∀ v, v ∉ pre.map (·.variant_id) → List.lookup v db'' = List.lookup v db) ∧
        (∀ v, e = .insufficient v → ∃ q ∈ suf, q.variant_id = v ∧
          ∃ cur, List.lookup v db = Option.some cur ∧
            cur.on_hand - cur.reserved < q.quantity ∧
            List.lookup v db'' = List.lookup v db) := by
  intro qs
  induction qs with
  | nil =>
    intro db applied0 e applied db'' _ _ _ h
    cases h
  | cons q rest ih =>
    intro db applied0 e applied db'' hnd hqnd hagree h
    unfold applyLoop at h
    cases hsnap : lastLookup snap q.variant_id with
    | none =>
      simp only [hsnap] at h
      cases h
      refine ⟨[], q :: rest, rfl, by simp, by simp, fun v _ => rfl, ?_⟩
      intro v he
      cases he
    | some cur =>
      simp only [hsnap] at h
      have hlq : List.lookup q.variant_id db = Option.some cur :=
        (hagree q (List.mem_cons_self _ _)).symm.trans hsnap
      by_cases havail : cur.on_hand - cur.reserved < q.quantity
      · rw [if_pos havail] at h
        cases h
        refine ⟨[], q :: rest, rfl, by simp, by simp, fun v _ => rfl, ?_⟩
        intro v he
        cases he
        exact ⟨q, List.mem_cons_self _ _, rfl, cur, hlq, havail, rfl⟩
      · rw [if_neg havail] at h
        obtain ⟨hcnt, hlkv, hlku⟩ := casUpdateAll_of_lookup db q.variant_id cur
          (nextVal mode q.quantity cur) hnd hlq
        rw [if_pos hcnt] at h
        simp only [List.map_cons, List.nodup_cons] at hqnd
        have hnd2 : ((casUpdateAll db q.variant_id cur
            (nextVal mode q.quantity cur)).1.map Prod.fst).Nodup := by
          rw [casUpdateAll_keys]
          exact hnd
        have hagree2 : ∀ p ∈ rest, lastLookup snap p.variant_id =
            List.lookup p.variant_id (casUpdateAll db q.variant_id cur
              (nextVal mode q.quantity cur)).1 := by
          intro p hp
          rw [hlku p.variant_id
            (fun he => hqnd.1 (he ▸ List.mem_map_of_mem (·.variant_id) hp))]
          exact hagree p (List.mem_cons_of_mem _ hp)
        obtain ⟨pre, suf, h1, h2, h3, h4, h5⟩ :=
          ih _ (applied0 ++ [q]) e applied db'' hnd2 hqnd.2 hagree2 h
        have hpresub : ∀ x ∈ pre.map (·.variant_id), x ∈ rest.map (·.variant_id) := by
          intro x hx
          rw [h1, List.map_append]
          exact List.mem_append_left _ hx
        refine ⟨q :: pre, suf, by rw [List.cons_append, h1], ?_, ?_, ?_, ?_⟩
        · rw [h2, List.append_assoc]
          rfl
        · intro p hp
          rcases List.mem_cons.mp hp with hpq | hppre
          · subst hpq
            refine ⟨cur, hlq, havail, ?_⟩
            have hqnotpre : p.variant_id ∉ pre.map (·.variant_id) :=
              fun hmem => hqnd.1 (hpresub _ hmem)
            rw [h4 p.variant_id hqnotpre, hlkv]
          · obtain ⟨cur2, hc1, hc2, hc3⟩ := h3 p hppre
            refine ⟨cur2, ?_, hc2, hc3⟩
            rw [← hc1]
            have hpne : p.variant_id ≠ q.variant_id := by
              intro he
              exact hqnd.1 (he ▸ hpresub _ (List.mem_map_of_mem (·.variant_id) hppre))
            exact (hlku p.variant_id hpne).symm
        · intro v hv
          simp only [List.map_cons, List.mem_cons] at hv
          push_neg at hv
          rw [h4 v hv.2, hlku v hv.1]
        · intro v he
          obtain ⟨q', hq'suf, hq'v, cur', hc1, hc2, hc3⟩ := h5 v he
          have hq'rest : q' ∈ rest := by
            rw [h1]
            exact List.mem_append_right _ hq'suf
          have hvne : v ≠ q.variant_id := by
            intro hev
            exact hqnd.1 ((hq'v.trans hev) ▸
              List.mem_map_of_mem (·.variant_id) hq'rest)
          refine ⟨q', hq'suf, hq'v, cur', ?_, hc2, ?_⟩
          · rw [← hlku v hvne]
            exact hc1
          · rw [hc3, hlku v hvne]

theorem nextVal_ne_self (mode : InventoryMode) (hm : mode ≠ .none) (q : Int)
    (hq : 0 < q) (cur : InventoryCounts) : nextVal mode q cur ≠ cur := by
  intro h
  cases mode with
  | none => exact hm rfl
  | reserve =>
    have hr := congrArg InventoryCounts.reserved h
    simp [nextVal] at hr
    omega
  | purchase =>
    have hr := congrArg InventoryCounts.on_hand h
    simp [nextVal] at hr
    omega

theorem applyInventoryMutation_guard (db : InvDB) (qs : List StockQuantity)
    (mode : InventoryMode) (h : mode = .none ∨ qs = []) :
    applyInventoryMutation db qs mode = .ok db := by
  unfold applyInventoryMutation
  rw [if_pos h]

theorem applyInventoryMutation_ok_spec (db : InvDB) (qs : List StockQuantity)
    (mode : InventoryMode) (db' : InvDB)
    (hnd : (db.map Prod.fst).Nodup)
    (hqnd : (qs.map (·.variant_id)).Nodup)
    (h : applyInventoryMutation db qs mode = .ok db')
    (hguard : ¬(mode = .none ∨ qs = [])) :
    db'.map Prod.fst = db.map Prod.fst ∧
    (∀ q ∈ qs, ∃ cur, List.lookup q.variant_id db = Option.some cur ∧
      ¬(cur.on_hand - cur.reserved < q.quantity) ∧
      List.lookup q.variant_id db' = Option.some (nextVal mode q.quantity cur)) ∧
    (∀ v, v ∉ qs.map (·.variant_id) → List.lookup v db' = List.lookup v db) := by
  unfold applyInventoryMutation at h
  rw [if_neg hguard] at h
  by_cases hlen : (readInventoryRows db (qs.map (·.variant_id))).length ≠
      (qs.map (·.variant_id)).length
  · rw [if_pos hlen] at h
    cases h
  · rw [if_neg hlen] at h
    exact applyLoop_ok_spec _ mode qs db [] db' hnd hqnd
      (fun q hq => lastLookup_readInventoryRows db _ q.variant_id hnd
        (List.mem_map_of_mem (·.variant_id) hq)) h

theorem applyInventoryMutation_fail_spec (db : InvDB) (qs : List StockQuantity)
    (mode : InventoryMode) (e : InvErr) (applied : List StockQuantity) (db'' : InvDB)
    (hnd : (db.map Prod.fst).Nodup)
    (hqnd : (qs.map (·.variant_id)).Nodup)
    (h : applyInventoryMutation db qs mode = .fail e applied db'') :
    ∃ pre suf, qs = pre ++ suf ∧ applied = pre ∧
      (∀ q ∈ pre, ∃ cur, List.lookup q.variant_id db = Option.some cur ∧
        ¬(cur.on_hand - cur.reserved < q.quantity) ∧
        List.lookup q.variant_id db'' = Option.some (nextVal mode q.quantity cur)) ∧
      (∀ v, v ∉ pre.map (·.variant_id) → List.lookup v db'' = List.lookup v db) ∧
      (∀ v, e = .insufficient v → ∃ q ∈ suf, q.variant_id = v ∧
        ∃ cur, List.lookup v db = Option.some cur ∧
          cur.on_hand - cur.reserved < q.quantity ∧
          List.lookup v db'' = List.lookup v db) := by
  unfold applyInventoryMutation at h
  by_cases hguard : mode = .none ∨ qs = []
  · rw [if_pos hguard] at h
    cases h
  · rw [if_neg hguard] at h
    by_cases hlen : (readInventoryRows db (qs.map (·.variant_id))).length ≠
        (qs.map (·.variant_id)).length
    · rw [if_pos hlen] at h
      cases h
      refine ⟨[], qs, rfl, rfl, by simp, fun v _ => rfl, ?_⟩
      intro v he
      cases he
    · rw [if_neg hlen] at h
      obtain ⟨pre, suf, h1, h2, h3, h4, h5⟩ :=
        applyLoop_fail_spec _ mode qs db [] e applied db'' hnd hqnd
          (fun q hq => lastLookup_readInventoryRows db _ q.variant_id hnd
            (List.mem_map_of_mem (·.variant_id) hq)) h
      exact ⟨pre, suf, h1, by simpa using h2, h3, h4, h5⟩

theorem applyInventoryMutation_fail_mutated (db : InvDB) (qs : List StockQuantity)
    (mode : InventoryMode) (e : InvErr) (applied : List StockQuantity) (db'' : InvDB)
    (hnd : (db.map Prod.fst).Nodup)
    (hqnd : (qs.map (·.variant_id)).Nodup)
    (hpos : ∀ q ∈ qs, 0 < q.quantity)
    (h : applyInventoryMutation db qs mode = .fail e applied db'') :
    (∃ suf, qs = applied ++ suf) ∧
    (∀ v, List.lookup v db'' ≠ List.lookup v db ↔ v ∈ applied.map (·.variant_id)) := by
  have hmode : ¬(mode = .none ∨ qs = []) := by
    intro hguard
    rw [applyInventoryMutation_guard db qs mode hguard] at h
    cases h
  obtain ⟨pre, suf, h1, h2, h3, h4, h5⟩ :=
    applyInventoryMutation_fail_spec db qs mode e applied db'' hnd hqnd h
  subst h2
  refine ⟨⟨suf, h1⟩, ?_⟩
  intro v
  constructor
  · intro hne
    by_contra hv
    exact hne (h4 v hv)
  · intro hv
    obtain ⟨q, hqpre, hqv⟩ := List.mem_map.mp hv
    obtain ⟨cur, hc1, hc2, hc3⟩ := h3 q hqpre
    have hqpos : 0 < q.quantity := hpos q (by rw [h1]; exact List.mem_append_left _ hqpre)
    have hmn : mode ≠ .none := by
      intro hmn
      exact hmode (Or.inl hmn)
    rw [hqv] at hc1 hc3
    rw [hc3, hc1]
    intro hcontra
    exact nextVal_ne_self mode hmn q.quantity hqpos cur (Option.some.inj hcontra)

theorem applyInventoryMutation_total (db : InvDB) (qs : List StockQuantity)
    (mode : InventoryMode)
    (hnd : (db.map Prod.fst).Nodup)
    (hqnd : (qs.map (·.variant_id)).Nodup)
    (hall : ∀ q ∈ qs, ∃ cur, List.lookup q.variant_id db = Option.some cur ∧
      ¬(cur.on_hand - cur.reserved < q.quantity)) :
    ∃ db', applyInventoryMutation db qs mode = .ok db' := by
  by_cases hguard : mode = .none ∨ qs = []
  · exact ⟨db, applyInventoryMutation_guard db qs mode hguard⟩
  · have hlen : (readInventoryRows db (qs.map (·.variant_id))).length =
        (qs.map (·.variant_id)).length := by
      apply readInventoryRows_length db _ hnd hqnd
      intro i hi
      obtain ⟨q, hq, hqi⟩ := List.mem_map.mp hi
      obtain ⟨cur, hc, _⟩ := hall q hq
      exact hqi ▸ lookup_some_key_mem hc
    obtain ⟨db', hdb'⟩ := applyLoop_total _ mode qs db [] hnd hqnd
      (fun q hq => by
        obtain ⟨cur, hc, hav⟩ := hall q hq
        exact ⟨cur, by
          rw [lastLookup_readInventoryRows db _ q.variant_id hnd
            (List.mem_map_of_mem (·.variant_id) hq)]
          exact hc, hc, hav⟩)
    refine ⟨db', ?_⟩
    unfold applyInventoryMutation
    rw [if_neg hguard, if_neg (by omega)]
    exact hdb'

/-- C3: for every variant processed by the inventory apply, in the order
supplied: a variant with `available < quantity` makes the apply fail with the
"insufficient stock" error and its row unwritten; otherwise `reserve`
increases `reserved` only, `purchase` decreases `on_hand` only, and `none`
mode touches no inventory row and defines no movement reason. -/
theorem c3_apply_per_variant (db : InvDB) (qs : List StockQuantity)
    (mode : InventoryMode)
    (hnd : (db.map Prod.fst).Nodup) (hqnd : (qs.map (·.variant_id)).Nodup) :
    (applyInventoryMutation db qs .none = .ok db ∧
      movementReasonForMode .none = Option.none) ∧
    (∀ db', mode ≠ .none → applyInventoryMutation db qs mode = .ok db' →
      ∀ q ∈ qs, ∃ cur, List.lookup q.variant_id db = Option.some cur ∧
        ¬(cur.on_hand - cur.reserved < q.quantity) ∧
        (mode = .reserve → List.lookup q.variant_id db' =
          Option.some ⟨cur.on_hand, cur.reserved + q.quantity⟩) ∧
        (mode = .purchase → List.lookup q.variant_id db' =
          Option.some ⟨cur.on_hand - q.quantity, cur.reserved⟩)) ∧
    (∀ e applied db'' v, applyInventoryMutation db qs mode = .fail e applied db'' →
      e = .insufficient v →
      ∃ q ∈ qs, q.variant_id = v ∧ ∃ cur, List.lookup v db = Option.some cur ∧
        cur.on_hand - cur.reserved < q.quantity ∧
        List.lookup v db'' = List.lookup v db) ∧
    (mode ≠ .none →
      (∀ q ∈ qs, ∃ cur, List.lookup q.variant_id db = Option.some cur ∧
        ¬(cur.on_hand - cur.reserved < q.quantity)) →
      ∃ db', applyInventoryMutation db qs mode = .ok db') := by
  refine ⟨⟨applyInventoryMutation_guard db qs .none (Or.inl rfl), rfl⟩, ?_, ?_, ?_⟩
  · intro db' hmode h q hq
    have hne : qs ≠ [] := by
      intro he
      subst he
      simp at hq
    obtain ⟨_, hmem, _⟩ := applyInventoryMutation_ok_spec db qs mode db' hnd hqnd h
      (fun hor => hor.elim hmode hne)
    obtain ⟨cur, hc1, hc2, hc3⟩ := hmem q hq
    refine ⟨cur, hc1, hc2, ?_, ?_⟩
    · intro hmr
      subst hmr
      rw [hc3]
      simp [nextVal]
    · intro hmp
      subst hmp
      rw [hc3]
      simp [nextVal]
  · intro e applied db'' v h he
    obtain ⟨pre, suf, h1, _, _, _, h5⟩ :=
      applyInventoryMutation_fail_spec db qs mode e applied db'' hnd hqnd h
    obtain ⟨q, hqsuf, hqv, cur, hc1, hc2, hc3⟩ := h5 v he
    exact ⟨q, by rw [h1]; exact List.mem_append_right _ hqsuf, hqv, cur, hc1, hc2, hc3⟩
  · intro hmode hall
    exact applyInventoryMutation_total db qs mode hnd hqnd hall

theorem c3_apply_per_variant_witness :
    applyInventoryMutation [("v1", (⟨10, 1⟩ : InventoryCounts))] [⟨"v1", 2⟩]
        InventoryMode.none = .ok [("v1", ⟨10, 1⟩)] ∧
      movementReasonForMode .none = Option.none :=
  (c3_apply_per_variant [("v1", ⟨10, 1⟩)] [⟨"v1", 2⟩] .reserve
    (by decide) (by decide)).1

/-! ## Rollback restores the pre-apply counters (claim C7) -/

theorem rollbackVal_nextVal (mode : InventoryMode) (q : Int) (cur : InventoryCounts)
    (hr : 0 ≤ cur.reserved) : rollbackVal mode q (nextVal mode q cur) = cur := by
  cases cur with
  | mk oh r =>
    have hr2 : 0 ≤ r := hr
    cases mode <;> simp [rollbackVal, nextVal] <;> omega

theorem rollback_fold_frame (snap : InvDB) (mode : InventoryMode) :
    ∀ (qs : List StockQuantity) (db0 : InvDB) (v : String),
      v ∉ qs.map (·.variant_id) →
      List.lookup v (qs.foldl (rollbackStep snap mode) db0) = List.lookup v db0 := by
  intro qs
  induction qs with
  | nil => intro db0 v _; rfl
  | cons q rest ih =>
    intro db0 v hv
    simp only [List.map_cons, List.mem_cons] at hv
    push_neg at hv
    rw [List.foldl_cons, ih _ v hv.2]
    unfold rollbackStep
    cases hs : lastLookup snap q.variant_id with
    | none => rfl
    | some c => exact updateAll_lookup_ne db0 q.variant_id v _ hv.1

theorem rollback_fold_mem (snap : InvDB) (mode : InventoryMode) :
    ∀ (qs : List StockQuantity) (db0 : InvDB) (q : StockQuantity),
      (qs.map (·.variant_id)).Nodup → q ∈ qs →
      ∀ c, lastLookup snap q.variant_id = Option.some c →
      List.lookup q.variant_id (qs.foldl (rollbackStep snap mode) db0) =
        (List.lookup q.variant_id db0).map (fun _ => rollbackVal mode q.quantity c) := by
  intro qs
  induction qs with
  | nil =>
    intro db0 q _ hq
    simp at hq
  | cons p rest ih =>
    intro db0 q hqnd hq c hc
    simp only [List.map_cons, List.nodup_cons] at hqnd
    rw [List.foldl_cons]
    rcases List.mem_cons.mp hq with hqp | hqrest
    · subst hqp
      rw [rollback_fold_frame snap mode rest _ q.variant_id hqnd.1]
      unfold rollbackStep
      rw [hc]
      exact updateAll_lookup_self db0 q.variant_id _
    · have hne : q.variant_id ≠ p.variant_id := by
        intro he
        exact hqnd.1 (he ▸ List.mem_map_of_mem (·.variant_id) hqrest)
      rw [ih _ q hqnd.2 hqrest c hc]
      unfold rollbackStep
      cases hs : lastLookup snap p.variant_id with
      | none => rfl
      | some c2 => rw [updateAll_lookup_ne db0 p.variant_id q.variant_id _ hne]

theorem rollback_after_ok (db : InvDB) (qs : List StockQuantity)
    (mode : InventoryMode) (db' : InvDB)
    (hnd : (db.map Prod.fst).Nodup) (hqnd : (qs.map (·.variant_id)).Nodup)
    (hres : ∀ r ∈ db, 0 ≤ r.2.reserved)
    (h : applyInventoryMutation db qs mode = .ok db') :
    ∀ v, List.lookup v (rollbackInventoryMutation db' qs mode) = List.lookup v db := by
  intro v
  by_cases hguard : mode = .none ∨ qs = []
  · rw [applyInventoryMutation_guard db qs mode hguard] at h
    cases h
    unfold rollbackInventoryMutation
    rw [if_pos hguard]
  · obtain ⟨hkeys, hmem, hframe⟩ :=
      applyInventoryMutation_ok_spec db qs mode db' hnd hqnd h hguard
    unfold rollbackInventoryMutation
    rw [if_neg hguard]
    by_cases hv : v ∈ qs.map (·.variant_id)
    · obtain ⟨q, hq, hqv⟩ := List.mem_map.mp hv
      obtain ⟨cur, hc1, hc2, hc3⟩ := hmem q hq
      have hnd' : (db'.map Prod.fst).Nodup := by
        rw [hkeys]
        exact hnd
      have hsnap : lastLookup (readInventoryRows db' (qs.map (·.variant_id)))
          q.variant_id = Option.some (nextVal mode q.quantity cur) := by
        rw [lastLookup_readInventoryRows db' _ q.variant_id hnd'
          (List.mem_map_of_mem (·.variant_id) hq)]
        exact hc3
      have hr : 0 ≤ cur.reserved := hres (q.variant_id, cur) (lookup_some_mem hc1)
      subst hqv
      rw [rollback_fold_mem _ mode qs db' q hqnd hq _ hsnap, hc3, hc1]
      simp [rollbackVal_nextVal mode q.quantity cur hr]
    · rw [rollback_fold_frame _ mode qs db' v hv, hframe v hv]

/-! ## Normalizer lemmas (claims C5, C6, C10) -/

theorem parseRequiredString_ok {v : Option JVal} {msg out : String}
    (h : parseRequiredString v msg = .ok out) :
    ∃ s, v = Option.some (.jstr s) ∧ jsTrim s ≠ "" ∧ out = jsTrim s := by
  cases v with
  | none => cases h
  | some jv =>
    cases jv with
    | jstr s =>
      have h2 : (if jsTrim s = "" then (.error msg : Except String String)
          else .ok (jsTrim s)) = .ok out := h
      by_cases he : jsTrim s = ""
      · rw [if_pos he] at h2
        cases h2
      · rw [if_neg he] at h2
        cases h2
        exact ⟨s, rfl, he, rfl⟩
    | jnull => cases h
    | jbool b => cases h
    | jnum n => cases h
    | jarr l => cases h
    | jobj l => cases h

theorem parseQuantity_ok {v : Option JVal} {out : Int}
    (h : parseQuantity v = .ok out) :
    v = Option.some (.jnum (.int out)) ∧ 0 < out := by
  cases v with
  | none => cases h
  | some jv =>
    cases jv with
    | jnum n =>
      cases n with
      | int q =>
        have h2 : (if q ≤ 0 then (.error "Each item.quantity must be a positive integer" :
            Except String Int) else .ok q) = .ok out := h
        by_cases hq : q ≤ 0
        · rw [if_pos hq] at h2
          cases h2
        · rw [if_neg hq] at h2
          cases h2
          exact ⟨rfl, by omega⟩
      | nonInt => cases h
    | jnull => cases h
    | jbool b => cases h
    | jstr s => cases h
    | jarr l => cases h
    | jobj l => cases h

theorem normalizeItemsLoop_cons_ok {seen : List String} {acc : List StockQuantity}
    {e : JVal} {rest : List JVal} {out : List StockQuantity}
    (h : normalizeItemsLoop seen acc (e :: rest) = .ok out) :
    ∃ s q, recordGet e "variant_id" = Option.some (.jstr s) ∧ jsTrim s ≠ "" ∧
      seen.contains (jsTrim s) = false ∧ 0 < q ∧
      normalizeItemsLoop (seen ++ [jsTrim s]) (acc ++ [⟨jsTrim s, q⟩]) rest =
        .ok out := by
  unfold normalizeItemsLoop at h
  by_cases hrec : isRecordLike e
  · rw [if_pos hrec] at h
    cases hv : parseRequiredString (recordGet e "variant_id")
        "Each item must have variant_id" with
    | error m =>
      simp only [hv] at h
      cases h
    | ok variantId =>
      simp only [hv] at h
      obtain ⟨s, hs1, hs2, hs3⟩ := parseRequiredString_ok hv
      by_cases hseen : seen.contains variantId = true
      · rw [if_pos hseen] at h
        cases h
      · rw [if_neg hseen] at h
        cases hq : parseQuantity (recordGet e "quantity") with
        | error m =>
          simp only [hq] at h
          cases h
        | ok q =>
          simp only [hq] at h
          obtain ⟨_, hq2⟩ := parseQuantity_ok hq
          subst hs3
          exact ⟨s, q, hs1, hs2, by simpa using hseen, hq2, h⟩
  · rw [if_neg hrec] at h
    cases h

theorem normalizeItemsLoop_seen_blocks (t : String) :
    ∀ (elems : List JVal) (seen : List String) (acc : List StockQuantity),
      t ∈ seen →
      (∃ e ∈ elems, ∃ s, recordGet e "variant_id" = Option.some (.jstr s) ∧
        jsTrim s = t) →
      ∀ out, normalizeItemsLoop seen acc elems ≠ .ok out := by
  intro elems
  induction elems with
  | nil =>
    intro seen acc _ hdup out _
    obtain ⟨e, he, _⟩ := hdup
    simp at he
  | cons e rest ih =>
    intro seen acc ht hdup out hok
    obtain ⟨s0, q0, hs1, _, hs3, _, hrec⟩ := normalizeItemsLoop_cons_ok hok
    obtain ⟨e2, he2, s, hvs, hst⟩ := hdup
    rcases List.mem_cons.mp he2 with he2h | he2t
    · subst he2h
      rw [hs1] at hvs
      simp only [Option.some.injEq, JVal.jstr.injEq] at hvs
      subst hvs
      rw [hst] at hs3
      have : seen.contains t = true := by simp [ht]
      rw [this] at hs3
      cases hs3
    · exact ih (seen ++ [jsTrim s0]) (acc ++ [⟨jsTrim s0, q0⟩])
        (List.mem_append_left _ ht) ⟨e2, he2t, s, hvs, hst⟩ out hrec

theorem normalizeItemsLoop_dup_fails (e1 e2 : JVal)
    (hdup : recordGet e1 "variant_id" = recordGet e2 "variant_id") :
    ∀ (l1 l2 l3 : List JVal) (seen : List String) (acc : List StockQuantity)
      (out : List StockQuantity),
      normalizeItemsLoop seen acc (l1 ++ e1 :: l2 ++ e2 :: l3) ≠ .ok out := by
  intro l1
  induction l1 with
  | nil =>
    intro l2 l3 seen acc out hok
    rw [List.nil_append] at hok
    obtain ⟨s0, q0, hs1, _, _, _, hrec⟩ := normalizeItemsLoop_cons_ok hok
    refine normalizeItemsLoop_seen_blocks (jsTrim s0) (l2 ++ e2 :: l3) _ _
      (List.mem_append_right _ (List.mem_singleton.mpr rfl))
      ⟨e2, List.mem_append_right _ (List.mem_cons_self _ _), s0, ?_, rfl⟩ out hrec
    rw [← hdup]
    exact hs1
  | cons e rest ih =>
    intro l2 l3 seen acc out hok
    rw [List.cons_append] at hok
    obtain ⟨s0, q0, _, _, _, _, hrec⟩ := normalizeItemsLoop_cons_ok hok
    exact ih l2 l3 _ _ out hrec

theorem normalizeItemsLoop_out_facts :
    ∀ (elems : List JVal) (seen : List String) (acc : List StockQuantity)
      (out : List StockQuantity),
      normalizeItemsLoop seen acc elems = .ok out →
      (∀ a ∈ acc, 0 < a.quantity) →
      (acc.map (·.variant_id)).Nodup →
      (∀ a ∈ acc, a.variant_id ∈ seen) →
      (∀ a ∈ out, 0 < a.quantity) ∧ (out.map (·.variant_id)).Nodup := by
  intro elems
  induction elems with
  | nil =>
    intro seen acc out h hpos hnd _
    cases h
    exact ⟨hpos, hnd⟩
  | cons e rest ih =>
    intro seen acc out h hpos hnd hsub
    obtain ⟨s, q, _, _, hseen, hq, hrec⟩ := normalizeItemsLoop_cons_ok h
    have hnotin : jsTrim s ∉ acc.map (·.variant_id) := by
      intro hmem
      obtain ⟨a, ha, hav⟩ := List.mem_map.mp hmem
      have : jsTrim s ∈ seen := hav ▸ hsub a ha
      simp [this] at hseen
    refine ih _ _ out hrec ?_ ?_ ?_
    · intro a ha
      rcases List.mem_append.mp ha with h1 | h2
      · exact hpos a h1
      · rw [List.mem_singleton.mp h2]
        exact hq
    · rw [List.map_append]
      simp only [List.map_cons, List.map_nil]
      rw [List.nodup_append]
      exact ⟨hnd, List.nodup_singleton _, by simpa using hnotin⟩
    · intro a ha
      rcases List.mem_append.mp ha with h1 | h2
      · exact List.mem_append_left _ (hsub a h1)
      · rw [List.mem_singleton.mp h2]
        exact List.mem_append_right _ (List.mem_singleton.mpr rfl)

theorem normalizeItems_ok_facts {v : Option JVal} {out : List StockQuantity}
    (h : normalizeItems v = .ok out) :
    (∀ a ∈ out, 0 < a.quantity) ∧ (out.map (·.variant_id)).Nodup := by
  cases v with
  | none => cases h
  | some jv =>
    cases jv with
    | jarr elems =>
      have h2 : (if elems.length < 1 then
          (.error "items must be a non-empty array" : Except String (List StockQuantity))
          else normalizeItemsLoop [] [] elems) = .ok out := h
      by_cases hlen : elems.length < 1
      · rw [if_pos hlen] at h2
        cases h2
      · rw [if_neg hlen] at h2
        exact normalizeItemsLoop_out_facts elems [] [] out h2 (by simp) (by simp)
          (by simp)
    | jnull => cases h
    | jbool b => cases h
    | jnum n => cases h
    | jstr s => cases h
    | jobj l => cases h

theorem normalizeItems_dup_fails {elems l1 l2 l3 : List JVal} {e1 e2 : JVal}
    (hsplit : elems = l1 ++ e1 :: l2 ++ e2 :: l3)
    (hdup : recordGet e1 "variant_id" = recordGet e2 "variant_id") :
    ∀ out, normalizeItems (Option.some (.jarr elems)) ≠ .ok out := by
  intro out hok
  have hok2 : (if elems.length < 1 then
      (.error "items must be a non-empty array" : Except String (List StockQuantity))
      else normalizeItemsLoop [] [] elems) = .ok out := hok
  by_cases hlen : elems.length < 1
  · rw [if_pos hlen] at hok2
    cases hok2
  · rw [if_neg hlen] at hok2
    subst hsplit
    exact normalizeItemsLoop_dup_fails e1 e2 hdup l1 l2 l3 [] [] out hok2

theorem normalizeCreateOrderPayload_ok_items {payload : JVal}
    {pl : NormalizedCreateOrderPayload}
    (h : normalizeCreateOrderPayload payload = .ok pl) :
    normalizeItems (recordGet payload "items") = .ok pl.items := by
  unfold normalizeCreateOrderPayload at h
  by_cases hrec : isRecordLike payload
  · rw [if_pos hrec] at h
    cases h1 : parseRequiredString (recordGet payload "shipping_address_id")
        "shipping_address_id is required" with
    | error m =>
      simp only [h1] at h
      cases h
    | ok ship =>
      simp only [h1] at h
      cases h2 : parseBilling payload ship with
      | error m =>
      simp only [h2] at h
      cases h
      | ok bill =>
        simp only [h2] at h
        cases h3 : normalizeCurrency (recordGet payload "currency") with
        | error m =>
      simp only [h3] at h
      cases h
        | ok currency =>
          simp only [h3] at h
          cases h4 : parseNonNegativeInteger (recordGet payload "shipping_cents")
              "shipping_cents" with
          | error m =>
      simp only [h4] at h
      cases h
          | ok sc =>
            simp only [h4] at h
            cases h5 : parseNonNegativeInteger (recordGet payload "tax_cents")
                "tax_cents" with
            | error m =>
      simp only [h5] at h
      cases h
            | ok tc =>
              simp only [h5] at h
              cases h6 : parseNonNegativeInteger (recordGet payload "discount_cents")
                  "discount_cents" with
              | error m =>
      simp only [h6] at h
      cases h
              | ok dc =>
                simp only [h6] at h
                cases h7 : normalizeStatus (recordGet payload "status") with
                | error m =>
      simp only [h7] at h
      cases h
                | ok status =>
                  simp only [h7] at h
                  cases h8 : normalizeItems (recordGet payload "items") with
                  | error m =>
      simp only [h8] at h
      cases h
                  | ok items =>
                    simp only [h8] at h
                    cases h
                    simp [h8]
  · rw [if_neg hrec] at h
    cases h

/-! ## Pricing and handler stepping lemmas -/

/-- The unit-price snapshot the pricing step reads for a variant id. -/
def priceSnap (variants : List VariantRow) (vid : String) : Int :=
  match variantLookup variants vid with
  | Option.some v => v.price_cents
  | Option.none => 0

theorem variantLookup_some_id {variants : List VariantRow} {vid : String}
    {v : VariantRow} (h : variantLookup variants vid = Option.some v) :
    v.id = vid := by
  unfold variantLookup at h
  have := List.find?_some h
  simpa using this

theorem computeLines_spec (variants : List VariantRow) :
    ∀ (items : List StockQuantity) (lines : List LineData),
      computeLines variants items = Option.some lines →
      lines.map (·.variant_id) = items.map (·.variant_id) ∧
      (lines.map (·.line_subtotal_cents)).sum =
        (items.map (fun it => it.quantity * priceSnap variants it.variant_id)).sum ∧
      (∀ l ∈ lines, ∃ it ∈ items, ∃ v,
        variantLookup variants it.variant_id = Option.some v ∧
        l.variant_id = it.variant_id ∧ l.quantity = it.quantity ∧
        l.unit_price_cents = v.price_cents ∧
        l.line_subtotal_cents = it.quantity * v.price_cents) := by
  intro items
  induction items with
  | nil =>
    intro lines h
    cases h
    simp
  | cons it rest ih =>
    intro lines h
    unfold computeLines at h
    cases hv : variantLookup variants it.variant_id with
    | none =>
      simp only [hv] at h
      cases h
    | some v =>
      simp only [hv] at h
      cases hr : computeLines variants rest with
      | none =>
        simp only [hr] at h
        cases h
      | some ls =>
        simp only [hr] at h
        cases h
        obtain ⟨ih1, ih2, ih3⟩ := ih ls hr
        refine ⟨?_, ?_, ?_⟩
        · simp only [List.map_cons, ih1]
          rw [variantLookup_some_id hv]
        · simp only [List.map_cons, List.sum_cons, ih2, priceSnap, hv]
        · intro l hl
          rcases List.mem_cons.mp hl with h1 | h2
          · subst h1
            exact ⟨it, List.mem_cons_self _ _, v, hv, by simp [variantLookup_some_id hv],
              rfl, rfl, rfl⟩
          · obtain ⟨it2, hit2, v2, ha, hb, hc, hd, he⟩ := ih3 l h2
            exact ⟨it2, List.mem_cons_of_mem _ hit2, v2, ha, hb, hc, hd, he⟩

theorem handleOrdersCreate_reduces (req : RequestModel) (w : World)
    (tok uid : String) (body : JVal) (pl : NormalizedCreateOrderPayload)
    (hm : req.method = "POST") (ht : req.bearerToken = Option.some tok)
    (hu : List.lookup tok w.tokenUsers = Option.some uid)
    (hb : req.body = Option.some body)
    (hn : normalizeCreateOrderPayload body = .ok pl) :
    handleOrdersCreate req w = handleWithPayload w uid pl := by
  unfold handleOrdersCreate
  rw [if_neg (by simp [hm])]
  simp only [ht, hu, hb, hn]

/-- C9: a request whose method is not POST is answered with status 405 and
body `{"error": "Method Not Allowed"}` before authentication runs, and the
world (all database state) is untouched. -/
theorem c9_non_post_rejected (req : RequestModel) (w : World)
    (h : req.method ≠ "POST") :
    handleOrdersCreate req w = (.err 405 "Method Not Allowed" Option.none, w) := by
  unfold handleOrdersCreate
  rw [if_pos h]

theorem c9_non_post_rejected_witness :
    handleOrdersCreate
      { method := "GET", bearerToken := Option.none, body := Option.none }
      testWorld =
      (.err 405 "Method Not Allowed" Option.none, testWorld) :=
  c9_non_post_rejected _ testWorld (by decide)

/-- C5: a request whose items list names the same `variant_id` in two
different items always fails with a 400 validation error, whatever the
quantities, and nothing is written: the handler never merges duplicates. -/
theorem c5_duplicate_variant_rejected (req : RequestModel) (w : World)
    (tok uid : String) (body : JVal) (elems l1 l2 l3 : List JVal) (e1 e2 : JVal)
    (hm : req.method = "POST") (ht : req.bearerToken = Option.some tok)
    (hu : List.lookup tok w.tokenUsers = Option.some uid)
    (hb : req.body = Option.some body)
    (hitems : recordGet body "items" = Option.some (.jarr elems))
    (hsplit : elems = l1 ++ e1 :: l2 ++ e2 :: l3)
    (hdup : recordGet e1 "variant_id" = recordGet e2 "variant_id") :
    ∃ msg, handleOrdersCreate req w = (.err 400 msg Option.none, w) := by
  cases hn : normalizeCreateOrderPayload body with
  | error msg =>
    refine ⟨msg, ?_⟩
    unfold handleOrdersCreate
    rw [if_neg (by simp [hm])]
    simp only [ht, hu, hb, hn]
  | ok pl =>
    exfalso
    have hitemsok := normalizeCreateOrderPayload_ok_items hn
    rw [hitems] at hitemsok
    exact normalizeItems_dup_fails hsplit hdup pl.items hitemsok

/-- Two raw items naming the same variant with different quantities. -/
def dupItem1 : JVal := .jobj [("variant_id", .jstr "v1"), ("quantity", .jnum (.int 2))]

/-- See `dupItem1`. -/
def dupItem2 : JVal := .jobj [("variant_id", .jstr "v1"), ("quantity", .jnum (.int 7))]

/-- A request whose two items name the same variant with different quantities. -/
def dupItemsReq : RequestModel :=
  { method := "POST", bearerToken := Option.some "tok",
    body := Option.some (.jobj
      [("shipping_address_id", .jstr "a1"),
       ("items", .jarr [dupItem1, dupItem2])]) }

theorem c5_duplicate_variant_rejected_witness :
    ∃ msg, handleOrdersCreate dupItemsReq testWorld =
      (.err 400 msg Option.none, testWorld) :=
  c5_duplicate_variant_rejected dupItemsReq testWorld "tok" "u1"
    (.jobj [("shipping_address_id", .jstr "a1"), ("items", .jarr [dupItem1, dupItem2])])
    [dupItem1, dupItem2] [] [] [] dupItem1 dupItem2
    rfl rfl rfl rfl rfl rfl rfl

theorem handleWithPayload_reduces (w : World) (uid : String)
    (pl : NormalizedCreateOrderPayload) (lines : List LineData)
    (hship : List.lookup pl.shippingAddressId w.addresses = Option.some uid)
    (hbill : List.lookup pl.billingAddressId w.addresses = Option.some uid)
    (hlen : (requestVariants w pl).length = (pl.items.map (·.variant_id)).length)
    (hcur : (requestVariants w pl).find? (fun v => v.currency ≠ pl.currency) =
      Option.none)
    (hlines : computeLines (requestVariants w pl) pl.items = Option.some lines)
    (htot : ¬((lines.map (·.line_subtotal_cents)).sum + pl.shippingCents +
      pl.taxCents - pl.discountCents < 0)) :
    handleWithPayload w uid pl =
      persistOrder w uid pl (requestVariants w pl) lines
        ((lines.map (·.line_subtotal_cents)).sum)
        ((lines.map (·.line_subtotal_cents)).sum + pl.shippingCents + pl.taxCents -
          pl.discountCents) := by
  unfold handleWithPayload
  rw [if_neg (by simp [hship]), if_neg (by simp [hbill])]
  simp only [hlen, hcur, hlines, ne_eq, not_true_eq_false, if_false,
    if_neg htot]

theorem handleWithPayload_negative_total (w : World) (uid : String)
    (pl : NormalizedCreateOrderPayload) (lines : List LineData)
    (hship : List.lookup pl.shippingAddressId w.addresses = Option.some uid)
    (hbill : List.lookup pl.billingAddressId w.addresses = Option.some uid)
    (hlen : (requestVariants w pl).length = (pl.items.map (·.variant_id)).length)
    (hcur : (requestVariants w pl).find? (fun v => v.currency ≠ pl.currency) =
      Option.none)
    (hlines : computeLines (requestVariants w pl) pl.items = Option.some lines)
    (htot : (lines.map (·.line_subtotal_cents)).sum + pl.shippingCents +
      pl.taxCents - pl.discountCents < 0) :
    handleWithPayload w uid pl =
      (.err 400 "total_cents must not be negative" Option.none, w) := by
  unfold handleWithPayload
  rw [if_neg (by simp [hship]), if_neg (by simp [hbill])]
  simp only [hlen, hcur, hlines, ne_eq, not_true_eq_false, if_false,
    if_pos htot]

theorem finishOrder_eq (w : World) (uid : String) (orderRow : OrderRow) :
    finishOrder w uid orderRow =
      (.success orderRow.id orderRow.order_number orderRow.total_cents
        (otherOrdersTotal w.orders uid orderRow.id), w) := rfl

theorem persistOrder_success_spec (w : World) (uid : String)
    (pl : NormalizedCreateOrderPayload) (variants : List VariantRow)
    (lines : List LineData) (subtotal total : Int) (resp : Resp) (w' : World)
    (oid : Nat) (onum : String) (tc ot : Int)
    (h : persistOrder w uid pl variants lines subtotal total = (resp, w'))
    (hresp : resp = .success oid onum tc ot) :
    oid = w.nextOrderId ∧ onum = w.nextOrderNumber ∧ tc = total ∧
    w'.orders = w.orders ++ [newOrderRow w uid pl subtotal total] ∧
    ot = otherOrdersTotal w'.orders uid w.nextOrderId := by
  subst hresp
  unfold persistOrder at h
  cases happ : applyInventoryMutation w.inventory (stockQs variants lines)
      (inventoryModeForStatus pl.status) with
  | fail e applied dbAfter =>
    simp only [happ] at h
    cases h
  | ok dbOk =>
    simp only [happ] at h
    cases hmr : movementReasonForMode (inventoryModeForStatus pl.status) with
    | none =>
      simp only [hmr, finishOrder_eq] at h
      rw [Prod.mk.injEq] at h
      obtain ⟨hr, hw⟩ := h
      rw [Resp.success.injEq] at hr
      obtain ⟨h1, h2, h3, h4⟩ := hr
      subst hw
      exact ⟨h1.symm, h2.symm, h3.symm, rfl, by rw [← h4]; rfl⟩
    | some reason =>
      simp only [hmr] at h
      by_cases htr : trackedOf variants lines ≠ []
      · rw [if_pos htr] at h
        cases hmv : w.movementInsertError with
        | some msg =>
          simp only [hmv] at h
          rw [Prod.mk.injEq] at h
          obtain ⟨hr, _⟩ := h
          simp at hr
        | none =>
          simp only [hmv, finishOrder_eq] at h
          rw [Prod.mk.injEq] at h
          obtain ⟨hr, hw⟩ := h
          rw [Resp.success.injEq] at hr
          obtain ⟨h1, h2, h3, h4⟩ := hr
          subst hw
          exact ⟨h1.symm, h2.symm, h3.symm, rfl, by rw [← h4]; rfl⟩
      · rw [if_neg htr] at h
        simp only [finishOrder_eq] at h
        rw [Prod.mk.injEq] at h
        obtain ⟨hr, hw⟩ := h
        rw [Resp.success.injEq] at hr
        obtain ⟨h1, h2, h3, h4⟩ := hr
        subst hw
        exact ⟨h1.symm, h2.symm, h3.symm, rfl, by rw [← h4]; rfl⟩

/-- C4: for every valid request, the persisted order's subtotal is the sum
over items of quantity times the variant's unit-price snapshot, its total is
`subtotal + shipping_cents + tax_cents - discount_cents`, a negative total is
rejected with a 400 before anything is written, and the success response's
`total_cents` equals the persisted order's. -/
theorem c4_totals (req : RequestModel) (w : World) (tok uid : String)
    (body : JVal) (pl : NormalizedCreateOrderPayload) (lines : List LineData)
    (hm : req.method = "POST") (ht : req.bearerToken = Option.some tok)
    (hu : List.lookup tok w.tokenUsers = Option.some uid)
    (hb : req.body = Option.some body)
    (hn : normalizeCreateOrderPayload body = .ok pl)
    (hship : List.lookup pl.shippingAddressId w.addresses = Option.some uid)
    (hbill : List.lookup pl.billingAddressId w.addresses = Option.some uid)
    (hlen : (requestVariants w pl).length = (pl.items.map (·.variant_id)).length)
    (hcur : (requestVariants w pl).find? (fun v => v.currency ≠ pl.currency) =
      Option.none)
    (hlines : computeLines (requestVariants w pl) pl.items = Option.some lines) :
    ((pl.items.map (fun it =>
        it.quantity * priceSnap (requestVariants w pl) it.variant_id)).sum +
        pl.shippingCents + pl.taxCents - pl.discountCents < 0 →
      handleOrdersCreate req w =
        (.err 400 "total_cents must not be negative" Option.none, w)) ∧
    (∀ resp w' oid onum tc ot, handleOrdersCreate req w = (resp, w') →
      resp = .success oid onum tc ot →
      ∃ o, o ∈ w'.orders ∧ o.id = oid ∧
        o.subtotal_cents = (pl.items.map (fun it =>
          it.quantity * priceSnap (requestVariants w pl) it.variant_id)).sum ∧
        o.shipping_cents = pl.shippingCents ∧ o.tax_cents = pl.taxCents ∧
        o.discount_cents = pl.discountCents ∧
        o.total_cents = o.subtotal_cents + o.shipping_cents + o.tax_cents -
          o.discount_cents ∧
        tc = o.total_cents) := by
  obtain ⟨hids, hsum, hdetail⟩ :=
    computeLines_spec (requestVariants w pl) pl.items lines hlines
  constructor
  · intro htot
    rw [handleOrdersCreate_reduces req w tok uid body pl hm ht hu hb hn]
    exact handleWithPayload_negative_total w uid pl lines hship hbill hlen hcur
      hlines (by rw [hsum]; exact htot)
  · intro resp w' oid onum tc ot hrun hresp
    by_cases htot : (lines.map (·.line_subtotal_cents)).sum + pl.shippingCents +
        pl.taxCents - pl.discountCents < 0
    · rw [handleOrdersCreate_reduces req w tok uid body pl hm ht hu hb hn,
        handleWithPayload_negative_total w uid pl lines hship hbill hlen hcur
          hlines htot] at hrun
      rw [Prod.mk.injEq] at hrun
      obtain ⟨hr, _⟩ := hrun
      rw [hresp] at hr
      simp at hr
    · rw [handleOrdersCreate_reduces req w tok uid body pl hm ht hu hb hn,
        handleWithPayload_reduces w uid pl lines hship hbill hlen hcur hlines
          htot] at hrun
      obtain ⟨h1, h2, h3, h4, h5⟩ := persistOrder_success_spec w uid pl
        (requestVariants w pl) lines _ _ resp w' oid onum tc ot hrun hresp
      refine ⟨newOrderRow w uid pl ((lines.map (·.line_subtotal_cents)).sum)
        ((lines.map (·.line_subtotal_cents)).sum + pl.shippingCents +
          pl.taxCents - pl.discountCents), ?_, ?_, ?_, rfl, rfl, rfl, rfl, ?_⟩
      · rw [h4]
        exact List.mem_append_right _ (List.mem_singleton.mpr rfl)
      · exact h1.symm
      · exact hsum
      · exact h3

theorem c4_totals_witness :
    ∃ o, o ∈ (handleOrdersCreate testReq testWorld).2.orders ∧ o.id = 7 ∧
      o.subtotal_cents = (testPayloadNorm.items.map (fun it =>
        it.quantity * priceSnap (requestVariants testWorld testPayloadNorm)
          it.variant_id)).sum ∧
      o.shipping_cents = testPayloadNorm.shippingCents ∧
      o.tax_cents = testPayloadNorm.taxCents ∧
      o.discount_cents = testPayloadNorm.discountCents ∧
      o.total_cents = o.subtotal_cents + o.shipping_cents + o.tax_cents -
        o.discount_cents ∧
      (500 : Int) = o.total_cents :=
  (c4_totals testReq testWorld "tok" "u1" testBody testPayloadNorm testLines
    rfl rfl rfl rfl (by rfl) rfl rfl (by rfl) (by rfl) (by rfl)).2
    (handleOrdersCreate testReq testWorld).1 (handleOrdersCreate testReq testWorld).2
    7 "ORD-1" 500 0 rfl (by rfl)

/-- C8 (amended): the aggregation runs through the RLS-scoped user client
(`orders_select_own`: `user_id = auth.uid() and deleted_at is null`), so on
success `other_orders_total_cents` is the sum of `total_cents` over the
requesting user's other non-deleted orders, excluding the order just
created — not over every order in the system. -/
theorem c8_other_orders_scope (req : RequestModel) (w : World) (tok uid : String)
    (body : JVal) (pl : NormalizedCreateOrderPayload) (lines : List LineData)
    (hm : req.method = "POST") (ht : req.bearerToken = Option.some tok)
    (hu : List.lookup tok w.tokenUsers = Option.some uid)
    (hb : req.body = Option.some body)
    (hn : normalizeCreateOrderPayload body = .ok pl)
    (hship : List.lookup pl.shippingAddressId w.addresses = Option.some uid)
    (hbill : List.lookup pl.billingAddressId w.addresses = Option.some uid)
    (hlen : (requestVariants w pl).length = (pl.items.map (·.variant_id)).length)
    (hcur : (requestVariants w pl).find? (fun v => v.currency ≠ pl.currency) =
      Option.none)
    (hlines : computeLines (requestVariants w pl) pl.items = Option.some lines) :
    ∀ resp w' oid onum tc ot, handleOrdersCreate req w = (resp, w') →
      resp = .success oid onum tc ot →
      ot = ((w'.orders.filter (fun o => decide (o.user_id = uid ∧
        o.deleted = false ∧ o.id ≠ oid))).map (·.total_cents)).sum := by
  intro resp w' oid onum tc ot hrun hresp
  by_cases htot : (lines.map (·.line_subtotal_cents)).sum + pl.shippingCents +
      pl.taxCents - pl.discountCents < 0
  · rw [handleOrdersCreate_reduces req w tok uid body pl hm ht hu hb hn,
      handleWithPayload_negative_total w uid pl lines hship hbill hlen hcur
        hlines htot] at hrun
    rw [Prod.mk.injEq] at hrun
    obtain ⟨hr, _⟩ := hrun
    rw [hresp] at hr
    simp at hr
  · rw [handleOrdersCreate_reduces req w tok uid body pl hm ht hu hb hn,
      handleWithPayload_reduces w uid pl lines hship hbill hlen hcur hlines
        htot] at hrun
    obtain ⟨h1, _, _, _, h5⟩ := persistOrder_success_spec w uid pl
      (requestVariants w pl) lines _ _ resp w' oid onum tc ot hrun hresp
    rw [h5, h1]
    rfl

/-- An order belonging to a second user, visible in the database but not to
the requesting user's RLS-scoped client. -/
def otherUserOrder : OrderRow :=
  { id := 1, order_number := "ORD-0", user_id := "u2",
    shipping_address_id := "a2", billing_address_id := "a2", status := "paid",
    currency := "EUR", subtotal_cents := 100, shipping_cents := 0,
    tax_cents := 0, discount_cents := 0, total_cents := 100, deleted := false }

/-- `testWorld` with another user's non-deleted order already present. -/
def testWorldC8 : World := { testWorld with orders := [otherUserOrder] }

theorem c8_other_orders_scope_witness :
    (0 : Int) = (((handleOrdersCreate testReq testWorldC8).2.orders.filter
      (fun o => decide (o.user_id = "u1" ∧ o.deleted = false ∧ o.id ≠ 7))).map
      (·.total_cents)).sum :=
  c8_other_orders_scope testReq testWorldC8 "tok" "u1" testBody testPayloadNorm
    testLines rfl rfl rfl rfl (by rfl) rfl rfl (by rfl) (by rfl) (by rfl)
    (handleOrdersCreate testReq testWorldC8).1
    (handleOrdersCreate testReq testWorldC8).2
    7 "ORD-1" 500 0 rfl (by rfl)

/-- C8 counterexample: with another user's non-deleted order of 100 cents in
the system, the success response reports `other_orders_total_cents = 0`,
while the sum over every other non-deleted order in the system is 100. -/
theorem c8_counterexample :
    (handleOrdersCreate testReq testWorldC8).1 = .success 7 "ORD-1" 500 0 ∧
    ((((handleOrdersCreate testReq testWorldC8).2.orders.filter
        (fun o => decide (o.deleted = false ∧ o.id ≠ 7))).map
      (·.total_cents)).sum) = 100 ∧
    (0 : Int) ≠ 100 := by decide

/-! ## Inventory failure compensation (claims C6, C7) -/

theorem movementReasonForMode_eq_none {m : InventoryMode}
    (h : movementReasonForMode m = Option.none) : m = .none := by
  cases m with
  | none => rfl
  | reserve => cases h
  | purchase => cases h

theorem stockQs_ids_eq (variants : List VariantRow) (lines : List LineData) :
    (stockQs variants lines).map (·.variant_id) =
      (trackedOf variants lines).map (·.variant_id) := by
  simp [stockQs, List.map_map]

theorem stockQs_facts (variants : List VariantRow) (lines : List LineData)
    (items : List StockQuantity)
    (hlines : computeLines variants items = Option.some lines)
    (hitemsnd : (items.map (·.variant_id)).Nodup)
    (hpos : ∀ it ∈ items, 0 < it.quantity) :
    ((stockQs variants lines).map (·.variant_id)).Nodup ∧
    (∀ q ∈ stockQs variants lines, 0 < q.quantity) := by
  obtain ⟨hids, _, hdetail⟩ := computeLines_spec variants items lines hlines
  constructor
  · rw [stockQs_ids_eq]
    have h2 : List.Sublist ((trackedOf variants lines).map (·.variant_id))
        (lines.map (·.variant_id)) :=
      (List.filter_sublist lines).map (·.variant_id)
    rw [hids] at h2
    exact hitemsnd.sublist h2
  · intro q hq
    simp only [stockQs] at hq
    obtain ⟨l, hl, hlq⟩ := List.mem_map.mp hq
    have hl2 : l ∈ lines := List.mem_of_mem_filter hl
    obtain ⟨it, hit, v, _, _, hq2, _, _⟩ := hdetail l hl2
    rw [← hlq]
    simp only
    rw [hq2]
    exact hpos it hit

theorem softDeleteOrder_marks (orders : List OrderRow) (uid : String)
    (orderId : Nat) (orderRow : OrderRow) (hmem : orderRow ∈ orders)
    (hid : orderRow.id = orderId) (huser : orderRow.user_id = uid)
    (hdel : orderRow.deleted = false) :
    ∃ o, o ∈ softDeleteOrder orders uid orderId ∧ o.id = orderId ∧
      o.deleted = true := by
  refine ⟨{ orderRow with deleted := true }, ?_, hid, rfl⟩
  unfold softDeleteOrder
  refine List.mem_map.mpr ⟨orderRow, hmem, ?_⟩
  rw [if_pos ⟨hid, huser, hdel⟩]

/-- C6: when the inventory apply fails mid-batch, the raised error carries
exactly the variants already written (they are the mutated rows, and no other
row changed), and the orchestrator rolls back exactly that
`appliedQuantities` list — not the full requested batch. -/
theorem c6_partial_failure_rollback (req : RequestModel) (w : World)
    (tok uid : String) (body : JVal) (pl : NormalizedCreateOrderPayload)
    (lines : List LineData) (e : InvErr) (applied : List StockQuantity)
    (dbAfter : InvDB)
    (hm : req.method = "POST") (ht : req.bearerToken = Option.some tok)
    (hu : List.lookup tok w.tokenUsers = Option.some uid)
    (hb : req.body = Option.some body)
    (hn : normalizeCreateOrderPayload body = .ok pl)
    (hship : List.lookup pl.shippingAddressId w.addresses = Option.some uid)
    (hbill : List.lookup pl.billingAddressId w.addresses = Option.some uid)
    (hlen : (requestVariants w pl).length = (pl.items.map (·.variant_id)).length)
    (hcur : (requestVariants w pl).find? (fun v => v.currency ≠ pl.currency) =
      Option.none)
    (hlines : computeLines (requestVariants w pl) pl.items = Option.some lines)
    (htot : ¬((lines.map (·.line_subtotal_cents)).sum + pl.shippingCents +
      pl.taxCents - pl.discountCents < 0))
    (hinvnd : (w.inventory.map Prod.fst).Nodup)
    (happly : applyInventoryMutation w.inventory
      (stockQs (requestVariants w pl) lines) (inventoryModeForStatus pl.status) =
      .fail e applied dbAfter)
    (hne : applied ≠ []) :
    ∀ resp w', handleOrdersCreate req w = (resp, w') →
      resp = .err 409 "Inventory update failed" (Option.some (invErrMessage e)) ∧
      w'.inventory = rollbackInventoryMutation dbAfter applied
        (inventoryModeForStatus pl.status) ∧
      (∃ suf, stockQs (requestVariants w pl) lines = applied ++ suf) ∧
      (∀ v, List.lookup v dbAfter ≠ List.lookup v w.inventory ↔
        v ∈ applied.map (·.variant_id)) := by
  intro resp w' hrun
  obtain ⟨hitemspos, hitemsnd⟩ := normalizeItems_ok_facts
    (normalizeCreateOrderPayload_ok_items hn)
  obtain ⟨hqnd, hqpos⟩ := stockQs_facts (requestVariants w pl) lines pl.items
    hlines hitemsnd hitemspos
  obtain ⟨hpref, hmut⟩ := applyInventoryMutation_fail_mutated w.inventory
    (stockQs (requestVariants w pl) lines) (inventoryModeForStatus pl.status)
    e applied dbAfter hinvnd hqnd hqpos happly
  rw [handleOrdersCreate_reduces req w tok uid body pl hm ht hu hb hn,
    handleWithPayload_reduces w uid pl lines hship hbill hlen hcur hlines
      htot] at hrun
  unfold persistOrder at hrun
  simp only [happly] at hrun
  rw [if_pos hne] at hrun
  rw [Prod.mk.injEq] at hrun
  obtain ⟨hr, hw⟩ := hrun
  subst hw
  exact ⟨hr.symm, rfl, hpref, hmut⟩

/-- C7: when the movement-log insert fails after a successful inventory
apply, the handler rolls the whole apply back (every counter returns to its
pre-apply value) and soft-deletes the order before returning the error. -/
theorem c7_movement_failure_restores (req : RequestModel) (w : World)
    (tok uid : String) (body : JVal) (pl : NormalizedCreateOrderPayload)
    (lines : List LineData) (dbOk : InvDB) (msg : String)
    (hm : req.method = "POST") (ht : req.bearerToken = Option.some tok)
    (hu : List.lookup tok w.tokenUsers = Option.some uid)
    (hb : req.body = Option.some body)
    (hn : normalizeCreateOrderPayload body = .ok pl)
    (hship : List.lookup pl.shippingAddressId w.addresses = Option.some uid)
    (hbill : List.lookup pl.billingAddressId w.addresses = Option.some uid)
    (hlen : (requestVariants w pl).length = (pl.items.map (·.variant_id)).length)
    (hcur : (requestVariants w pl).find? (fun v => v.currency ≠ pl.currency) =
      Option.none)
    (hlines : computeLines (requestVariants w pl) pl.items = Option.some lines)
    (htot : ¬((lines.map (·.line_subtotal_cents)).sum + pl.shippingCents +
      pl.taxCents - pl.discountCents < 0))
    (hinvnd : (w.inventory.map Prod.fst).Nodup)
    (hres : ∀ r ∈ w.inventory, 0 ≤ r.2.reserved)
    (happly : applyInventoryMutation w.inventory
      (stockQs (requestVariants w pl) lines) (inventoryModeForStatus pl.status) =
      .ok dbOk)
    (hmode : inventoryModeForStatus pl.status ≠ .none)
    (htr : trackedOf (requestVariants w pl) lines ≠ [])
    (hmv : w.movementInsertError = Option.some msg) :
    ∀ resp w', handleOrdersCreate req w = (resp, w') →
      resp = .err 500 "Inventory movement insert failed" (Option.some msg) ∧
      (∀ v, List.lookup v w'.inventory = List.lookup v w.inventory) ∧
      (∃ o, o ∈ w'.orders ∧ o.id = w.nextOrderId ∧ o.deleted = true) := by
  intro resp w' hrun
  obtain ⟨hitemspos, hitemsnd⟩ := normalizeItems_ok_facts
    (normalizeCreateOrderPayload_ok_items hn)
  obtain ⟨hqnd, _⟩ := stockQs_facts (requestVariants w pl) lines pl.items
    hlines hitemsnd hitemspos
  rw [handleOrdersCreate_reduces req w tok uid body pl hm ht hu hb hn,
    handleWithPayload_reduces w uid pl lines hship hbill hlen hcur hlines
      htot] at hrun
  unfold persistOrder at hrun
  simp only [happly] at hrun
  cases hmr : movementReasonForMode (inventoryModeForStatus pl.status) with
  | none => exact absurd (movementReasonForMode_eq_none hmr) hmode
  | some reason =>
    simp only [hmr] at hrun
    rw [if_pos htr] at hrun
    simp only [hmv] at hrun
    rw [Prod.mk.injEq] at hrun
    obtain ⟨hr, hw⟩ := hrun
    subst hw
    refine ⟨hr.symm, ?_, ?_⟩
    · intro v
      exact rollback_after_ok w.inventory _ _ dbOk hinvnd hqnd hres happly v
    · exact softDeleteOrder_marks _ uid w.nextOrderId
        (newOrderRow w uid pl ((lines.map (·.line_subtotal_cents)).sum)
          ((lines.map (·.line_subtotal_cents)).sum + pl.shippingCents +
            pl.taxCents - pl.discountCents))
        (List.mem_append_right _ (List.mem_singleton.mpr rfl)) rfl rfl rfl

/-- A second tracked variant with nearly exhausted stock. -/
def testVariant3 : VariantRow :=
  { id := "v3", sku := "SKU3", price_cents := 50, currency := "EUR",
    track_inventory := true, product_title := "Notebook" }

/-- A world where the second tracked variant has no available stock. -/
def testWorldC6 : World :=
  { testWorld with variants := [testVariant1, testVariant3],
                   inventory := [("v1", ⟨10, 1⟩), ("v3", ⟨1, 1⟩)] }

/-- A request over both tracked variants; the second one cannot be served. -/
def testBodyC6 : JVal :=
  .jobj
    [("shipping_address_id", .jstr "a1"),
     ("items", .jarr
       [.jobj [("variant_id", .jstr "v1"), ("quantity", .jnum (.int 2))],
        .jobj [("variant_id", .jstr "v3"), ("quantity", .jnum (.int 1))]])]

/-- The request carrying `testBodyC6`. -/
def testReqC6 : RequestModel :=
  { method := "POST", bearerToken := Option.some "tok",
    body := Option.some testBodyC6 }

/-- The normalized form of `testBodyC6`. -/
def testPayloadC6 : NormalizedCreateOrderPayload :=
  { shippingAddressId := "a1", billingAddressId := "a1", currency := "EUR",
    shippingCents := 0, taxCents := 0, discountCents := 0, status := "placed",
    items := [⟨"v1", 2⟩, ⟨"v3", 1⟩] }

/-- The order lines computed for `testBodyC6` in `testWorldC6`. -/
def testLinesC6 : List LineData :=
  [{ variant_id := "v1", sku_snapshot := "SKU1", title_snapshot := "Coffee Mug",
     quantity := 2, unit_price_cents := 100, line_subtotal_cents := 200,
     line_total_cents := 200 },
   { variant_id := "v3", sku_snapshot := "SKU3", title_snapshot := "Notebook",
     quantity := 1, unit_price_cents := 50, line_subtotal_cents := 50,
     line_total_cents := 50 }]

theorem c6_partial_failure_rollback_witness :
    (handleOrdersCreate testReqC6 testWorldC6).1 =
      .err 409 "Inventory update failed"
        (Option.some (invErrMessage (.insufficient "v3"))) :=
  (c6_partial_failure_rollback testReqC6 testWorldC6 "tok" "u1" testBodyC6
    testPayloadC6 testLinesC6 (.insufficient "v3") [⟨"v1", 2⟩]
    [("v1", ⟨10, 3⟩), ("v3", ⟨1, 1⟩)]
    rfl rfl rfl rfl (by rfl) rfl rfl (by rfl) (by rfl) (by rfl) (by decide)
    (by decide) (by rfl) (by decide)
    (handleOrdersCreate testReqC6 testWorldC6).1
    (handleOrdersCreate testReqC6 testWorldC6).2 rfl).1

/-- `testWorld` whose movement-log insert is doomed to fail. -/
def testWorldC7 : World :=
  { testWorld with movementInsertError := Option.some "boom" }

theorem c7_movement_failure_restores_witness :
    (handleOrdersCreate testReq testWorldC7).1 =
      .err 500 "Inventory movement insert failed" (Option.some "boom") :=
  (c7_movement_failure_restores testReq testWorldC7 "tok" "u1" testBody
    testPayloadNorm testLines [("v1", ⟨10, 3⟩)] "boom"
    rfl rfl rfl rfl (by rfl) rfl rfl (by rfl) (by rfl) (by rfl) (by decide)
    (by decide) (by decide) (by rfl) (by decide) (by decide) rfl
    (handleOrdersCreate testReq testWorldC7).1
    (handleOrdersCreate testReq testWorldC7).2 rfl).1

/-! ## The two-request race (claim C1) -/

theorem schedule_cases (sched : List Bool) (hlen : sched.length = 4)
    (hcnt : sched.count true = 2) :
    sched = [true, true, false, false] ∨ sched = [true, false, true, false] ∨
    sched = [true, false, false, true] ∨ sched = [false, true, true, false] ∨
    sched = [false, true, false, true] ∨ sched = [false, false, true, true] := by
  rcases sched with _ | ⟨a, _ | ⟨b, _ | ⟨c, _ | ⟨d, _ | ⟨e, rest⟩⟩⟩⟩⟩ <;>
    simp only [List.length_cons, List.length_nil] at hlen <;> try omega
  cases a <;> cases b <;> cases c <;> cases d <;> simp_all

/-- C1 (amended): two concurrent order-creation requests contending on one
tracked variant's inventory row — each abstracted to its snapshot read and
availability-checked compare-and-swap write in `applyInventoryMutation` —
with a stock-affecting mode (`reserve` or `purchase`), each individually
within available stock but jointly oversubscribing it: under every
interleaving, exactly one succeeds, the other fails with the
insufficient-stock or concurrency-conflict error, and the final counters are
exactly what the successful request alone would have produced. -/
theorem c1_race_exactly_one (mode : InventoryMode) (inv : InventoryCounts)
    (q1 q2 : Int) (sched : List Bool)
    (hm : mode ≠ .none)
    (hr0 : 0 ≤ inv.reserved) (hrh : inv.reserved ≤ inv.on_hand)
    (h1 : 0 < q1) (h2 : 0 < q2)
    (hq1 : q1 ≤ inv.on_hand - inv.reserved)
    (hq2 : q2 ≤ inv.on_hand - inv.reserved)
    (hover : inv.on_hand - inv.reserved < q1 + q2)
    (hlen : sched.length = 4) (hcnt : sched.count true = 2) :
    ((runSchedule mode q1 q2 inv sched).p1.outcome = .success ∧
      ((runSchedule mode q1 q2 inv sched).p2.outcome = .insufficient ∨
       (runSchedule mode q1 q2 inv sched).p2.outcome = .conflict) ∧
      (runSchedule mode q1 q2 inv sched).inv = nextVal mode q1 inv) ∨
    ((runSchedule mode q1 q2 inv sched).p2.outcome = .success ∧
      ((runSchedule mode q1 q2 inv sched).p1.outcome = .insufficient ∨
       (runSchedule mode q1 q2 inv sched).p1.outcome = .conflict) ∧
      (runSchedule mode q1 q2 inv sched).inv = nextVal mode q2 inv) := by
  rcases inv with ⟨oh, r⟩
  have hr0b : 0 ≤ r := hr0
  have hrhb : r ≤ oh := hrh
  have hq1b : q1 ≤ oh - r := hq1
  have hq2b : q2 ≤ oh - r := hq2
  have hoverb : oh - r < q1 + q2 := hover
  have hA1 : ¬(oh - r < q1) := by omega
  have hA2 : ¬(oh - r < q2) := by omega
  cases mode with
  | none => exact absurd rfl hm
  | reserve =>
    have hB1 : oh - (r + q1) < q2 := by omega
    have hB2 : oh - (r + q2) < q1 := by omega
    have hN1 : ¬(r + q1 = r) := by omega
    have hN2 : ¬(r + q2 = r) := by omega
    rcases schedule_cases sched hlen hcnt with h | h | h | h | h | h <;> subst h
    · have hrun : runSchedule .reserve q1 q2 ⟨oh, r⟩ [true, true, false, false] =
          ⟨⟨oh, r + q1⟩, ⟨Option.some ⟨oh, r⟩, .success⟩,
            ⟨Option.some ⟨oh, r + q1⟩, .insufficient⟩⟩ := by
        simp [runSchedule, raceStep, procStep, initRace, nextVal, hA1, hB1]
      rw [hrun]
      exact Or.inl ⟨rfl, Or.inl rfl, by simp [nextVal]⟩
    · have hrun : runSchedule .reserve q1 q2 ⟨oh, r⟩ [true, false, true, false] =
          ⟨⟨oh, r + q1⟩, ⟨Option.some ⟨oh, r⟩, .success⟩,
            ⟨Option.some ⟨oh, r⟩, .conflict⟩⟩ := by
        simp [runSchedule, raceStep, procStep, initRace, nextVal, hA1, hA2, hN1]
      rw [hrun]
      exact Or.inl ⟨rfl, Or.inr rfl, by simp [nextVal]⟩
    · have hrun : runSchedule .reserve q1 q2 ⟨oh, r⟩ [true, false, false, true] =
          ⟨⟨oh, r + q2⟩, ⟨Option.some ⟨oh, r⟩, .conflict⟩,
            ⟨Option.some ⟨oh, r⟩, .success⟩⟩ := by
        simp [runSchedule, raceStep, procStep, initRace, nextVal, hA1, hA2, hN2]
      rw [hrun]
      exact Or.inr ⟨rfl, Or.inr rfl, by simp [nextVal]⟩
    · have hrun : runSchedule .reserve q1 q2 ⟨oh, r⟩ [false, true, true, false] =
          ⟨⟨oh, r + q1⟩, ⟨Option.some ⟨oh, r⟩, .success⟩,
            ⟨Option.some ⟨oh, r⟩, .conflict⟩⟩ := by
        simp [runSchedule, raceStep, procStep, initRace, nextVal, hA1, hA2, hN1]
      rw [hrun]
      exact Or.inl ⟨rfl, Or.inr rfl, by simp [nextVal]⟩
    · have hrun : runSchedule .reserve q1 q2 ⟨oh, r⟩ [false, true, false, true] =
          ⟨⟨oh, r + q2⟩, ⟨Option.some ⟨oh, r⟩, .conflict⟩,
            ⟨Option.some ⟨oh, r⟩, .success⟩⟩ := by
        simp [runSchedule, raceStep, procStep, initRace, nextVal, hA1, hA2, hN2]
      rw [hrun]
      exact Or.inr ⟨rfl, Or.inr rfl, by simp [nextVal]⟩
    · have hrun : runSchedule .reserve q1 q2 ⟨oh, r⟩ [false, false, true, true] =
          ⟨⟨oh, r + q2⟩, ⟨Option.some ⟨oh, r + q2⟩, .insufficient⟩,
            ⟨Option.some ⟨oh, r⟩, .success⟩⟩ := by
        simp [runSchedule, raceStep, procStep, initRace, nextVal, hA2, hB2]
      rw [hrun]
      exact Or.inr ⟨rfl, Or.inl rfl, by simp [nextVal]⟩
  | purchase =>
    have hB1 : (oh - q1) - r < q2 := by omega
    have hB2 : (oh - q2) - r < q1 := by omega
    have hN1 : ¬(oh - q1 = oh) := by omega
    have hN2 : ¬(oh - q2 = oh) := by omega
    rcases schedule_cases sched hlen hcnt with h | h | h | h | h | h <;> subst h
    · have hrun : runSchedule .purchase q1 q2 ⟨oh, r⟩ [true, true, false, false] =
          ⟨⟨oh - q1, r⟩, ⟨Option.some ⟨oh, r⟩, .success⟩,
            ⟨Option.some ⟨oh - q1, r⟩, .insufficient⟩⟩ := by
        simp [runSchedule, raceStep, procStep, initRace, nextVal, hA1, hB1]
      rw [hrun]
      exact Or.inl ⟨rfl, Or.inl rfl, by simp [nextVal]⟩
    · have hrun : runSchedule .purchase q1 q2 ⟨oh, r⟩ [true, false, true, false] =
          ⟨⟨oh - q1, r⟩, ⟨Option.some ⟨oh, r⟩, .success⟩,
            ⟨Option.some ⟨oh, r⟩, .conflict⟩⟩ := by
        simp [runSchedule, raceStep, procStep, initRace, nextVal, hA1, hA2, hN1]
      rw [hrun]
      exact Or.inl ⟨rfl, Or.inr rfl, by simp [nextVal]⟩
    · have hrun : runSchedule .purchase q1 q2 ⟨oh, r⟩ [true, false, false, true] =
          ⟨⟨oh - q2, r⟩, ⟨Option.some ⟨oh, r⟩, .conflict⟩,
            ⟨Option.some ⟨oh, r⟩, .success⟩⟩ := by
        simp [runSchedule, raceStep, procStep, initRace, nextVal, hA1, hA2, hN2]
      rw [hrun]
      exact Or.inr ⟨rfl, Or.inr rfl, by simp [nextVal]⟩
    · have hrun : runSchedule .purchase q1 q2 ⟨oh, r⟩ [false, true, true, false] =
          ⟨⟨oh - q1, r⟩, ⟨Option.some ⟨oh, r⟩, .success⟩,
            ⟨Option.some ⟨oh, r⟩, .conflict⟩⟩ := by
        simp [runSchedule, raceStep, procStep, initRace, nextVal, hA1, hA2, hN1]
      rw [hrun]
      exact Or.inl ⟨rfl, Or.inr rfl, by simp [nextVal]⟩
    · have hrun : runSchedule .purchase q1 q2 ⟨oh, r⟩ [false, true, false, true] =
          ⟨⟨oh - q2, r⟩, ⟨Option.some ⟨oh, r⟩, .conflict⟩,
            ⟨Option.some ⟨oh, r⟩, .success⟩⟩ := by
        simp [runSchedule, raceStep, procStep, initRace, nextVal, hA1, hA2, hN2]
      rw [hrun]
      exact Or.inr ⟨rfl, Or.inr rfl, by simp [nextVal]⟩
    · have hrun : runSchedule .purchase q1 q2 ⟨oh, r⟩ [false, false, true, true] =
          ⟨⟨oh - q2, r⟩, ⟨Option.some ⟨oh - q2, r⟩, .insufficient⟩,
            ⟨Option.some ⟨oh, r⟩, .success⟩⟩ := by
        simp [runSchedule, raceStep, procStep, initRace, nextVal, hA2, hB2]
      rw [hrun]
      exact Or.inr ⟨rfl, Or.inl rfl, by simp [nextVal]⟩

theorem c1_race_exactly_one_witness :
    ((runSchedule .reserve 1 1 ⟨1, 0⟩ [true, false, true, false]).p1.outcome =
        .success ∧
      ((runSchedule .reserve 1 1 ⟨1, 0⟩ [true, false, true, false]).p2.outcome =
          .insufficient ∨
       (runSchedule .reserve 1 1 ⟨1, 0⟩ [true, false, true, false]).p2.outcome =
          .conflict) ∧
      (runSchedule .reserve 1 1 ⟨1, 0⟩ [true, false, true, false]).inv =
        nextVal .reserve 1 ⟨1, 0⟩) ∨
    ((runSchedule .reserve 1 1 ⟨1, 0⟩ [true, false, true, false]).p2.outcome =
        .success ∧
      ((runSchedule .reserve 1 1 ⟨1, 0⟩ [true, false, true, false]).p1.outcome =
          .insufficient ∨
       (runSchedule .reserve 1 1 ⟨1, 0⟩ [true, false, true, false]).p1.outcome =
          .conflict) ∧
      (runSchedule .reserve 1 1 ⟨1, 0⟩ [true, false, true, false]).inv =
        nextVal .reserve 1 ⟨1, 0⟩) :=
  c1_race_exactly_one .reserve ⟨1, 0⟩ 1 1 [true, false, true, false]
    (by decide) (by decide) (by decide) (by decide) (by decide) (by decide)
    (by decide) (by decide) (by decide) (by decide)

/-- C1 counterexample to the claim as stated: with one unit available and two
concurrent requests for two units each (jointly oversubscribing), neither
request succeeds — both fail the availability check — so it is not the case
that exactly one succeeds. -/
theorem c1_counterexample :
    (1 : Int) - 0 < 2 + 2 ∧
    (runSchedule .reserve 2 2 ⟨1, 0⟩ [true, true, false, false]).p1.outcome ≠
      .success ∧
    (runSchedule .reserve 2 2 ⟨1, 0⟩ [true, true, false, false]).p2.outcome ≠
      .success ∧
    (runSchedule .reserve 2 2 ⟨1, 0⟩ [true, true, false, false]).inv = ⟨1, 0⟩ := by
  decide

/-! ## Whitespace normalization of string fields (claim C10) -/

/-- A raw JSON item object `{variant_id, quantity}`. -/
def mkRawItem (p : String × JVal) : JVal :=
  .jobj [("variant_id", .jstr p.1), ("quantity", p.2)]

/-- A fully-populated JSON body, every field present; the string-typed fields
are parameters so surrounding whitespace can be varied. -/
def fullPayload (ship bill cur : String) (shipC taxC discC status : JVal)
    (items : List (String × JVal)) : JVal :=
  .jobj
    [("shipping_address_id", .jstr ship), ("billing_address_id", .jstr bill),
     ("currency", .jstr cur), ("shipping_cents", shipC), ("tax_cents", taxC),
     ("discount_cents", discC), ("status", status),
     ("items", .jarr (items.map mkRawItem))]

theorem normalizeItemsLoop_trim_congr :
    ∀ (items items' : List (String × JVal)) (seen : List String)
      (acc : List StockQuantity),
      List.Forall₂ (fun p p' => jsTrim p.1 = jsTrim p'.1 ∧ p.2 = p'.2) items items' →
      normalizeItemsLoop seen acc (items.map mkRawItem) =
        normalizeItemsLoop seen acc (items'.map mkRawItem) := by
  intro items
  induction items with
  | nil =>
    intro items' seen acc hf
    cases hf
    rfl
  | cons p rest ih =>
    intro items' seen acc hf
    cases hf with
    | cons hpq hrest =>
      rename_i p' rest'
      obtain ⟨ht, hq⟩ := hpq
      simp only [List.map_cons]
      unfold normalizeItemsLoop
      rw [if_pos (show isRecordLike (mkRawItem p) = true from rfl),
        if_pos (show isRecordLike (mkRawItem p') = true from rfl)]
      have e1 : parseRequiredString (recordGet (mkRawItem p) "variant_id")
          "Each item must have variant_id" =
          (if jsTrim p.1 = "" then .error "Each item must have variant_id"
           else .ok (jsTrim p.1)) := rfl
      have e2 : parseRequiredString (recordGet (mkRawItem p') "variant_id")
          "Each item must have variant_id" =
          (if jsTrim p'.1 = "" then .error "Each item must have variant_id"
           else .ok (jsTrim p'.1)) := rfl
      rw [e1, e2, ht]
      by_cases he : jsTrim p'.1 = ""
      · simp only [if_pos he]
      · simp only [if_neg he]
        by_cases hs : seen.contains (jsTrim p'.1) = true
        · simp only [if_pos hs]
        · simp only [if_neg hs]
          have e3 : recordGet (mkRawItem p) "quantity" = Option.some p.2 := rfl
          have e4 : recordGet (mkRawItem p') "quantity" = Option.some p'.2 := rfl
          rw [e3, e4, hq]
          cases hpq2 : parseQuantity (Option.some p'.2) with
          | error m => simp only [hpq2]
          | ok qv =>
            simp only [hpq2]
            exact ih rest' _ _ hrest

theorem fullPayload_trim_congr (ship ship' bill bill' cur cur' : String)
    (sc tc dc st : JVal) (items items' : List (String × JVal))
    (hship : jsTrim ship = jsTrim ship') (hbill : jsTrim bill = jsTrim bill')
    (hcur : jsTrim cur = jsTrim cur')
    (hitems : List.Forall₂ (fun p p' => jsTrim p.1 = jsTrim p'.1 ∧ p.2 = p'.2)
      items items') :
    normalizeCreateOrderPayload (fullPayload ship bill cur sc tc dc st items) =
      normalizeCreateOrderPayload (fullPayload ship' bill' cur' sc tc dc st items') := by
  unfold normalizeCreateOrderPayload
  rw [if_pos (show isRecordLike (fullPayload ship bill cur sc tc dc st items) = true from rfl),
    if_pos (show isRecordLike (fullPayload ship' bill' cur' sc tc dc st items') = true from rfl)]
  have p1 : parseRequiredString
      (recordGet (fullPayload ship bill cur sc tc dc st items) "shipping_address_id")
      "shipping_address_id is required" =
      (if jsTrim ship = "" then .error "shipping_address_id is required"
       else .ok (jsTrim ship)) := rfl
  have p2 : parseRequiredString
      (recordGet (fullPayload ship' bill' cur' sc tc dc st items') "shipping_address_id")
      "shipping_address_id is required" =
      (if jsTrim ship' = "" then .error "shipping_address_id is required"
       else .ok (jsTrim ship')) := rfl
  rw [p1, p2, hship]
  by_cases hs1 : jsTrim ship' = ""
  · simp only [if_pos hs1]
  · simp only [if_neg hs1]
    have b1 : ∀ x, parseBilling (fullPayload ship bill cur sc tc dc st items) x =
        (if jsTrim bill = "" then
          .error "billing_address_id must be a non-empty string when provided"
         else .ok (jsTrim bill)) := fun x => rfl
    have b2 : ∀ x, parseBilling (fullPayload ship' bill' cur' sc tc dc st items') x =
        (if jsTrim bill' = "" then
          .error "billing_address_id must be a non-empty string when provided"
         else .ok (jsTrim bill')) := fun x => rfl
    rw [b1, b2, hbill]
    by_cases hb1 : jsTrim bill' = ""
    · simp only [if_pos hb1]
    · simp only [if_neg hb1]
      have c1 : normalizeCurrency
          (recordGet (fullPayload ship bill cur sc tc dc st items) "currency") =
          (if jsToUpper (jsTrim cur) = "" then
            .error "currency must be a non-empty string"
           else .ok (jsToUpper (jsTrim cur))) := rfl
      have c2 : normalizeCurrency
          (recordGet (fullPayload ship' bill' cur' sc tc dc st items') "currency") =
          (if jsToUpper (jsTrim cur') = "" then
            .error "currency must be a non-empty string"
           else .ok (jsToUpper (jsTrim cur'))) := rfl
      rw [c1, c2, show jsToUpper (jsTrim cur) = jsToUpper (jsTrim cur') from
        congrArg jsToUpper hcur]
      by_cases hc1 : jsToUpper (jsTrim cur') = ""
      · simp only [if_pos hc1]
      · simp only [if_neg hc1]
        have n1 : recordGet (fullPayload ship bill cur sc tc dc st items)
            "shipping_cents" = Option.some sc := rfl
        have n2 : recordGet (fullPayload ship' bill' cur' sc tc dc st items')
            "shipping_cents" = Option.some sc := rfl
        rw [n1, n2]
        cases hsc : parseNonNegativeInteger (Option.some sc) "shipping_cents" with
        | error m => simp only [hsc]
        | ok scv =>
          simp only [hsc]
          have t1 : recordGet (fullPayload ship bill cur sc tc dc st items)
              "tax_cents" = Option.some tc := rfl
          have t2 : recordGet (fullPayload ship' bill' cur' sc tc dc st items')
              "tax_cents" = Option.some tc := rfl
          rw [t1, t2]
          cases htc : parseNonNegativeInteger (Option.some tc) "tax_cents" with
          | error m => simp only [htc]
          | ok tcv =>
            simp only [htc]
            have d1 : recordGet (fullPayload ship bill cur sc tc dc st items)
                "discount_cents" = Option.some dc := rfl
            have d2 : recordGet (fullPayload ship' bill' cur' sc tc dc st items')
                "discount_cents" = Option.some dc := rfl
            rw [d1, d2]
            cases hdc : parseNonNegativeInteger (Option.some dc) "discount_cents" with
            | error m => simp only [hdc]
            | ok dcv =>
              simp only [hdc]
              have s1 : recordGet (fullPayload ship bill cur sc tc dc st items)
                  "status" = Option.some st := rfl
              have s2 : recordGet (fullPayload ship' bill' cur' sc tc dc st items')
                  "status" = Option.some st := rfl
              rw [s1, s2]
              cases hst : normalizeStatus (Option.some st) with
              | error m => simp only [hst]
              | ok stv =>
                simp only [hst]
                have i1 : recordGet (fullPayload ship bill cur sc tc dc st items)
                    "items" = Option.some (.jarr (items.map mkRawItem)) := rfl
                have i2 : recordGet (fullPayload ship' bill' cur' sc tc dc st items')
                    "items" = Option.some (.jarr (items'.map mkRawItem)) := rfl
                rw [i1, i2]
                have j1 : normalizeItems (Option.some (.jarr (items.map mkRawItem))) =
                    (if (items.map mkRawItem).length < 1 then
                      .error "items must be a non-empty array"
                     else normalizeItemsLoop [] [] (items.map mkRawItem)) := rfl
                have j2 : normalizeItems (Option.some (.jarr (items'.map mkRawItem))) =
                    (if (items'.map mkRawItem).length < 1 then
                      .error "items must be a non-empty array"
                     else normalizeItemsLoop [] [] (items'.map mkRawItem)) := rfl
                have hlen12 : (items.map mkRawItem).length =
                    (items'.map mkRawItem).length := by
                  simp [hitems.length_eq]
                rw [j1, j2, hlen12,
                  normalizeItemsLoop_trim_congr items items' [] [] hitems]

/-- `fullPayload` with the `shipping_address_id` key absent. -/
def noShipPayload (bill cur : String) (shipC taxC discC status : JVal)
    (items : List (String × JVal)) : JVal :=
  .jobj
    [("billing_address_id", .jstr bill), ("currency", .jstr cur),
     ("shipping_cents", shipC), ("tax_cents", taxC), ("discount_cents", discC),
     ("status", status), ("items", .jarr (items.map mkRawItem))]

theorem fullPayload_ws_shipping (s bill cur : String) (sc tc dc st : JVal)
    (items : List (String × JVal)) (hs : jsTrim s = "") :
    normalizeCreateOrderPayload (fullPayload s bill cur sc tc dc st items) =
      normalizeCreateOrderPayload (noShipPayload bill cur sc tc dc st items) := by
  have hR : normalizeCreateOrderPayload (noShipPayload bill cur sc tc dc st items) =
      .error "shipping_address_id is required" := rfl
  have hL : normalizeCreateOrderPayload (fullPayload s bill cur sc tc dc st items) =
      .error "shipping_address_id is required" := by
    unfold normalizeCreateOrderPayload
    rw [if_pos (show isRecordLike (fullPayload s bill cur sc tc dc st items) = true from rfl)]
    have p1 : parseRequiredString
        (recordGet (fullPayload s bill cur sc tc dc st items) "shipping_address_id")
        "shipping_address_id is required" =
        (if jsTrim s = "" then .error "shipping_address_id is required"
         else .ok (jsTrim s)) := rfl
    rw [p1, if_pos hs]
  rw [hL, hR]

theorem itemsLoop_ws_variant (s : String) (q : JVal) (rest : List JVal)
    (seen : List String) (acc : List StockQuantity) (hs : jsTrim s = "") :
    normalizeItemsLoop seen acc (mkRawItem (s, q) :: rest) =
      normalizeItemsLoop seen acc (.jobj [("quantity", q)] :: rest) := by
  have hR : normalizeItemsLoop seen acc (.jobj [("quantity", q)] :: rest) =
      .error "Each item must have variant_id" := rfl
  have hL : normalizeItemsLoop seen acc (mkRawItem (s, q) :: rest) =
      .error "Each item must have variant_id" := by
    unfold normalizeItemsLoop
    rw [if_pos (show isRecordLike (mkRawItem (s, q)) = true from rfl)]
    have p1 : parseRequiredString (recordGet (mkRawItem (s, q)) "variant_id")
        "Each item must have variant_id" =
        (if jsTrim s = "" then .error "Each item must have variant_id"
         else .ok (jsTrim s)) := rfl
    rw [p1, if_pos hs]
  rw [hL, hR]

theorem fullPayload_ws_currency (ship bill cur : String) (sc tc dc st : JVal)
    (items : List (String × JVal)) (hsh : jsTrim ship ≠ "")
    (hbl : jsTrim bill ≠ "") (hc : jsTrim cur = "") :
    normalizeCreateOrderPayload (fullPayload ship bill cur sc tc dc st items) =
      .error "currency must be a non-empty string" := by
  unfold normalizeCreateOrderPayload
  rw [if_pos (show isRecordLike (fullPayload ship bill cur sc tc dc st items) = true from rfl)]
  have p1 : parseRequiredString
      (recordGet (fullPayload ship bill cur sc tc dc st items) "shipping_address_id")
      "shipping_address_id is required" =
      (if jsTrim ship = "" then .error "shipping_address_id is required"
       else .ok (jsTrim ship)) := rfl
  rw [p1, if_neg hsh]
  simp only []
  have b1 : ∀ x, parseBilling (fullPayload ship bill cur sc tc dc st items) x =
      (if jsTrim bill = "" then
        .error "billing_address_id must be a non-empty string when provided"
       else .ok (jsTrim bill)) := fun x => rfl
  rw [b1, if_neg hbl]
  simp only []
  have c1 : normalizeCurrency
      (recordGet (fullPayload ship bill cur sc tc dc st items) "currency") =
      (if jsToUpper (jsTrim cur) = "" then .error "currency must be a non-empty string"
       else .ok (jsToUpper (jsTrim cur))) := rfl
  rw [c1, hc, if_pos (show jsToUpper "" = "" from rfl)]

theorem fullPayload_ws_billing (ship bill cur : String) (sc tc dc st : JVal)
    (items : List (String × JVal)) (hsh : jsTrim ship ≠ "")
    (hbl : jsTrim bill = "") :
    normalizeCreateOrderPayload (fullPayload ship bill cur sc tc dc st items) =
      .error "billing_address_id must be a non-empty string when provided" := by
  unfold normalizeCreateOrderPayload
  rw [if_pos (show isRecordLike (fullPayload ship bill cur sc tc dc st items) = true from rfl)]
  have p1 : parseRequiredString
      (recordGet (fullPayload ship bill cur sc tc dc st items) "shipping_address_id")
      "shipping_address_id is required" =
      (if jsTrim ship = "" then .error "shipping_address_id is required"
       else .ok (jsTrim ship)) := rfl
  rw [p1, if_neg hsh]
  simp only []
  have b1 : ∀ x, parseBilling (fullPayload ship bill cur sc tc dc st items) x =
      (if jsTrim bill = "" then
        .error "billing_address_id must be a non-empty string when provided"
       else .ok (jsTrim bill)) := fun x => rfl
  rw [b1, if_pos hbl]

/-- C10: the normalizer trims surrounding whitespace from shipping_address_id,
billing_address_id, each item's variant_id and currency, so (1) two requests
whose string fields agree after trimming normalize identically; (2) a
whitespace-only shipping_address_id is rejected exactly as if the field were
missing, and (3) likewise a whitespace-only item variant_id; but (4) a
whitespace-only currency and (5) a whitespace-only billing_address_id are
rejected with a validation error, whereas omitting either field would apply
its default ("EUR", resp. the shipping address) - so for the optional fields
"rejected as if missing" does not hold. -/
theorem c10_whitespace_normalization :
    (∀ (ship ship' bill bill' cur cur' : String) (sc tc dc st : JVal)
       (items items' : List (String × JVal)),
       jsTrim ship = jsTrim ship' → jsTrim bill = jsTrim bill' →
       jsTrim cur = jsTrim cur' →
       List.Forall₂ (fun p p' => jsTrim p.1 = jsTrim p'.1 ∧ p.2 = p'.2) items items' →
       normalizeCreateOrderPayload (fullPayload ship bill cur sc tc dc st items) =
         normalizeCreateOrderPayload (fullPayload ship' bill' cur' sc tc dc st items')) ∧
    (∀ (s bill cur : String) (sc tc dc st : JVal) (items : List (String × JVal)),
       jsTrim s = "" →
       normalizeCreateOrderPayload (fullPayload s bill cur sc tc dc st items) =
         normalizeCreateOrderPayload (noShipPayload bill cur sc tc dc st items)) ∧
    (∀ (s : String) (q : JVal) (rest : List JVal) (seen : List String)
       (acc : List StockQuantity), jsTrim s = "" →
       normalizeItemsLoop seen acc (mkRawItem (s, q) :: rest) =
         normalizeItemsLoop seen acc (.jobj [("quantity", q)] :: rest)) ∧
    (∀ (ship bill cur : String) (sc tc dc st : JVal) (items : List (String × JVal)),
       jsTrim ship ≠ "" → jsTrim bill ≠ "" → jsTrim cur = "" →
       normalizeCreateOrderPayload (fullPayload ship bill cur sc tc dc st items) =
         .error "currency must be a non-empty string") ∧
    (∀ (ship bill cur : String) (sc tc dc st : JVal) (items : List (String × JVal)),
       jsTrim ship ≠ "" → jsTrim bill = "" →
       normalizeCreateOrderPayload (fullPayload ship bill cur sc tc dc st items) =
         .error "billing_address_id must be a non-empty string when provided") :=
  ⟨fun ship ship' bill bill' cur cur' sc tc dc st items items' h1 h2 h3 h4 =>
      fullPayload_trim_congr ship ship' bill bill' cur cur' sc tc dc st items items' h1 h2 h3 h4,
   fun s bill cur sc tc dc st items hs =>
      fullPayload_ws_shipping s bill cur sc tc dc st items hs,
   fun s q rest seen acc hs => itemsLoop_ws_variant s q rest seen acc hs,
   fun ship bill cur sc tc dc st items h1 h2 h3 =>
      fullPayload_ws_currency ship bill cur sc tc dc st items h1 h2 h3,
   fun ship bill cur sc tc dc st items h1 h2 =>
      fullPayload_ws_billing ship bill cur sc tc dc st items h1 h2⟩

/-- Concrete instantiation of each conjunct of `c10_whitespace_normalization`. -/
theorem c10_whitespace_normalization_witness :
    (normalizeCreateOrderPayload
        (fullPayload " a1" "a1 " " eur" .jnull .jnull .jnull .jnull
          [(" v1", .jnum (.int 2))]) =
      normalizeCreateOrderPayload
        (fullPayload "a1" "a1" "eur" .jnull .jnull .jnull .jnull
          [("v1", .jnum (.int 2))])) ∧
    (normalizeCreateOrderPayload
        (fullPayload "   " "a1" "EUR" .jnull .jnull .jnull .jnull
          [("v1", .jnum (.int 1))]) =
      normalizeCreateOrderPayload
        (noShipPayload "a1" "EUR" .jnull .jnull .jnull .jnull
          [("v1", .jnum (.int 1))])) ∧
    (normalizeItemsLoop [] [] [mkRawItem ("  ", .jnum (.int 1))] =
      normalizeItemsLoop [] [] [.jobj [("quantity", .jnum (.int 1))]]) ∧
    (normalizeCreateOrderPayload
        (fullPayload "a1" "a1" "   " .jnull .jnull .jnull .jnull
          [("v1", .jnum (.int 1))]) =
      .error "currency must be a non-empty string") ∧
    (normalizeCreateOrderPayload
        (fullPayload "a1" "  " "EUR" .jnull .jnull .jnull .jnull
          [("v1", .jnum (.int 1))]) =
      .error "billing_address_id must be a non-empty string when provided") :=
  ⟨c10_whitespace_normalization.1 " a1" "a1" "a1 " "a1" " eur" "eur"
      .jnull .jnull .jnull .jnull [(" v1", .jnum (.int 2))] [("v1", .jnum (.int 2))]
      (by decide) (by decide) (by decide)
      (List.Forall₂.cons ⟨by decide, rfl⟩ List.Forall₂.nil),
   c10_whitespace_normalization.2.1 "   " "a1" "EUR" .jnull .jnull .jnull .jnull
      [("v1", .jnum (.int 1))] (by decide),
   c10_whitespace_normalization.2.2.1 "  " (.jnum (.int 1)) [] [] [] (by decide),
   c10_whitespace_normalization.2.2.2.1 "a1" "a1" "   " .jnull .jnull .jnull .jnull
      [("v1", .jnum (.int 1))] (by decide) (by decide) (by decide),
   c10_whitespace_normalization.2.2.2.2 "a1" "  " "EUR" .jnull .jnull .jnull .jnull
      [("v1", .jnum (.int 1))] (by decide) (by decide)⟩

/-- Two concrete bodies differing only in that one carries a whitespace-only
currency while the other omits currency: the former is rejected while the
latter succeeds with the default "EUR", so a whitespace-only optional field is
NOT treated "as if missing". -/
theorem c10_counterexample :
    normalizeCreateOrderPayload (.jobj
      [("shipping_address_id", .jstr "a1"), ("currency", .jstr "   "),
       ("items", .jarr [.jobj [("variant_id", .jstr "v1"),
                               ("quantity", .jnum (.int 1))]])]) =
      .error "currency must be a non-empty string" ∧
    normalizeCreateOrderPayload (.jobj
      [("shipping_address_id", .jstr "a1"),
       ("items", .jarr [.jobj [("variant_id", .jstr "v1"),
                               ("quantity", .jnum (.int 1))]])]) =
      .ok ⟨"a1", "a1", "EUR", 0, 0, 0, "placed", [⟨"v1", 1⟩]⟩ :=
  ⟨rfl, rfl⟩
